import Mathlib

/-!
Shallow embedding of the upscaledb/hamsterdb B+-tree core, translated from
`src/btree_insert.c`, `src/btree_cursor.c` and `src/mem.c`.

Modelling conventions:
* Machine pointers into the page cache become page ids (`Nat`) resolved
  through an association list carried in the `DB` state; a C function taking
  a `ham_page_t *` becomes a function taking the page value (or its id) and
  the updated page is written back to the store, mirroring mutation through
  the pointer.
* Key bytes are abstracted to a `Nat` compared with the natural order, a
  faithful instance of the configured total-order comparator; the comparator
  never fails in the model, so the `COMPARE_FAILED` branches are dead.
* The in-page slot array is a Lean list which models the backing bytes: the
  node's `count` field is tracked separately, exactly as in C, so stale
  slots beyond `count` remain readable (the split code reads one).
* Allocation (pages, blobs, key copies) always succeeds; `OUT_OF_MEMORY`
  branches are therefore not taken. Collaborator error codes are modelled
  by the status value returned, without a separate `db->_error` register.
* Functions of this repository that are not among the provided sources
  (`btree_traverse_tree`, `btree_node_search_by_key`, `btree_find_cursor`,
  `btree_erase_cursor`, the pager and the transaction manager) are modelled
  from the spec; their definitions say so in their doc comments.
-/

/-- Return values of the B-tree routines (`ham_status_t` plus the private
`SPLIT` code of btree_insert.c, and a fuel marker for the embedding). -/
inductive Status where
  | ok
  | duplicateKey
  | keyNotFound
  | cursorIsNil
  | outOfMemory
  | notInitialized
  | invParameter
  | split
  | fuelExhausted
  deriving DecidableEq, Repr

/-- `sizeof(ham_offset_t)`: the pointer word of a slot is 8 bytes wide. -/
def ptrWidth : Nat := 8

/-- The `KEY_BLOB_SIZE_*` bits of a slot's flag byte. -/
structure KeyFlags where
  tiny : Bool
  small : Bool
  empty : Bool
  deriving DecidableEq, Repr

def kfNone : KeyFlags := ⟨false, false, false⟩

/-- A slot entry (`key_t` / `int_key_t`): key bytes, key length, flag bits
and the pointer word. -/
structure IntKey where
  flags : KeyFlags
  ptr : Nat
  size : Nat
  kdata : Nat
  deriving DecidableEq, Repr

def defaultSlot : IntKey := ⟨kfNone, 0, 0, 0⟩

/-- A public key (`ham_key_t`): data plus size. -/
structure HamKey where
  data : Nat
  size : Nat
  deriving DecidableEq, Repr

/-- A public record (`ham_record_t`): bytes plus size. -/
structure HamRecord where
  data : List Nat
  size : Nat
  deriving DecidableEq, Repr

/-- Page type tags. -/
inductive PageType where
  | root
  | index
  | leaf
  deriving DecidableEq, Repr

/-- The btree node header plus its slot array (`btree_node_t`). `slots` is
the backing byte area; only the first `count` entries are live. -/
structure BtreeNode where
  isLeaf : Bool
  ptrLeft : Nat
  left : Nat
  right : Nat
  count : Nat
  slots : List IntKey
  deriving DecidableEq, Repr

def emptyNode : BtreeNode := ⟨false, 0, 0, 0, 0, []⟩

/-- A cached page (`ham_page_t`): type tag, node payload, dirty bit and the
list of ids of cursors coupled to it. -/
structure Page where
  ptype : PageType
  node : BtreeNode
  dirty : Bool
  cursors : List Nat
  deriving DecidableEq, Repr

def defaultPage : Page := ⟨PageType.index, emptyNode, false, []⟩

/-- A btree cursor (`ham_bt_cursor_t`): the COUPLED/UNCOUPLED mode bits with
their payloads, the duplicate id (always 0 in the core) and the links of the
database's global cursor list. `cid` is the cursor's identity in the store. -/
structure BtCursor where
  cid : Nat
  coupled : Bool
  uncoupled : Bool
  coupledPage : Nat
  coupledIndex : Nat
  uncoupledKey : Option HamKey
  dupeId : Nat
  next : Nat
  prev : Nat
  deriving DecidableEq, Repr

def btCursorIsNil (c : BtCursor) : Bool := !c.coupled && !c.uncoupled

/-- The database handle together with the page cache, the btree backend
(`rootpage`, `maxkeys`) and the global cursor list. -/
structure DB where
  pages : List (Nat × Page)
  nextPageId : Nat
  rootpage : Nat
  maxkeys : Nat
  dirty : Bool
  nextBlobId : Nat
  hasBackend : Bool
  activeTxn : Bool
  cursorsHead : Nat
  cstore : List (Nat × BtCursor)
  deriving DecidableEq, Repr

/-- Association-list lookup used for the page cache. -/
def pagesFind : List (Nat × Page) → Nat → Option Page
  | [], _ => none
  | e :: es, pid => if e.1 = pid then some e.2 else pagesFind es pid

/-- Association-list map-at-key used for mutation through a page pointer. -/
def pagesMap (f : Page → Page) : List (Nat × Page) → Nat → List (Nat × Page)
  | [], _ => []
  | e :: es, pid =>
      (if e.1 = pid then (e.1, f e.2) else e) :: pagesMap f es pid

def DB.fetchPage (db : DB) (pid : Nat) : Option Page := pagesFind db.pages pid

/-- Dereference of a raw `ham_page_t *` the C code never checks. -/
def DB.getPage (db : DB) (pid : Nat) : Page := (db.fetchPage pid).getD defaultPage

def DB.mapPage (db : DB) (pid : Nat) (f : Page → Page) : DB :=
  { db with pages := pagesMap f db.pages pid }

def DB.setPage (db : DB) (pid : Nat) (pg : Page) : DB :=
  db.mapPage pid (fun _ => pg)

/-- Modelled from the spec: `db_alloc_page` belongs to the pager, which is
not among the provided sources. It hands out a fresh zero-initialised page
of the requested type (spec section 6). -/
def DB.allocPage (db : DB) (t : PageType) : DB × Nat :=
  ({ db with
      pages := db.pages ++ [(db.nextPageId, ⟨t, emptyNode, false, []⟩)],
      nextPageId := db.nextPageId + 1 }, db.nextPageId)

def DB.withNextBlob (db : DB) (n : Nat) : DB := { db with nextBlobId := n }

/-- `btree_set_rootpage(be, id)`. -/
def DB.setRootpage (db : DB) (np : Nat) : DB := { db with rootpage := np }

/-- `db_set_dirty(db, 1)`. -/
def DB.setDbDirty (db : DB) : DB := { db with dirty := true }

def getSlotD (l : List IntKey) (i : Nat) : IntKey := l.getD i defaultSlot

/-- Write of a slot through `btree_node_get_key`; indices past the list model
backing bytes not yet represented, so the list is padded. -/
def setSlot : List IntKey → Nat → IntKey → List IntKey
  | [], 0, s => [s]
  | [], n + 1, s => defaultSlot :: setSlot [] n s
  | _ :: xs, 0, s => s :: xs
  | x :: xs, n + 1, s => x :: setSlot xs n s

/-- The `memmove` of `my_insert_nosplit`: copy slots `[i, count)` one stride
to the right; slot `i` keeps its old bytes until overwritten. -/
def memmoveOpen (l : List IntKey) (i count : Nat) : List IntKey :=
  l.take (i + 1) ++ (l.drop i).take (count - i) ++ l.drop (count + 1)

/-- The live slots of a node: the first `count` entries of the backing area. -/
def liveSlots (n : BtreeNode) : List IntKey :=
  (List.range n.count).map (getSlotD n.slots)

def nodeHasLiveKey (n : BtreeNode) (key : HamKey) : Bool :=
  (List.range n.count).any (fun i => (getSlotD n.slots i).kdata == key.data)

/-- The `NOFLUSH`/`OVERWRITE` bits of the internal insert flags word. -/
structure InsFlags where
  noflush : Bool
  overwrite : Bool
  deriving DecidableEq, Repr

/-- The literal `0` flags word. -/
def insFlags0 : InsFlags := ⟨false, false⟩

/-- The `OVERWRITE` flags word used for pivot propagation. -/
def insFlagsOverwrite : InsFlags := ⟨false, true⟩

/-- The insert scratchpad (`insert_scratchpad_t`): record, propagated pivot
key/rid, and the stored (never read) `ham_insert` flags. -/
structure Scratch where
  record : HamRecord
  key : HamKey
  rid : Nat
  uflags : InsFlags
  deriving DecidableEq, Repr

/-- `key_compare_int_to_pub(page, i, key)`: sign of (slot key − public key). -/
def keyCompareIntToPub (slots : List IntKey) (i : Nat) (key : HamKey) : Ordering :=
  compare (getSlotD slots i).kdata key.data

/-- Outcome of the ordered scan of `my_insert_nosplit`: either the key exists
at a slot, or it is to be inserted at an index. -/
inductive ScanRes where
  | dup (i : Nat)
  | ins (i : Nat)
  deriving DecidableEq, Repr

/-- The scanning loop of `my_insert_nosplit` from index `i` with `r` slots of
the live region left to visit. -/
def scanAux (slots : List IntKey) (key : HamKey) : Nat → Nat → ScanRes
  | i, 0 => ScanRes.ins i
  | i, r + 1 =>
      match keyCompareIntToPub slots i key with
      | Ordering.eq => ScanRes.dup i
      | Ordering.gt => ScanRes.ins i
      | Ordering.lt => scanAux slots key (i + 1) r

def scanPos (slots : List IntKey) (key : HamKey) (count : Nat) : ScanRes :=
  scanAux slots key 0 count

/-- byte `i` of a little-endian word -/
def leByte (w i : Nat) : Nat := w / 256 ^ i % 256

/-- `memcpy(&rid, record->data, record->size)`: overwrite the low `size`
bytes of the word with the record bytes. -/
def bytesOverwrite (w : Nat) (data : List Nat) (size : Nat) : Nat :=
  (List.range ptrWidth).foldl
    (fun acc i =>
      acc + (if i < size then data.getD i 0 % 256 else leByte w i) * 256 ^ i) 0

/-- `p[sizeof(ham_offset_t)-1] = record->size`: the last byte of the word
becomes the length. -/
def setLastByte (w b : Nat) : Nat :=
  w % 256 ^ (ptrWidth - 1) + b % 256 * 256 ^ (ptrWidth - 1)

/-- Record materialisation of `my_insert_nosplit` after `key_set_flags(bte,0)`:
the EMPTY/TINY/SMALL encodings into the pointer word for a leaf, the plain
rid otherwise. -/
def recordEncode (isLeaf : Bool) (record : HamRecord) (rid : Nat) : KeyFlags × Nat :=
  if isLeaf then
    if record.size = 0 then ({ kfNone with empty := true }, rid)
    else if record.size ≤ ptrWidth then
      let w := bytesOverwrite rid record.data record.size
      if record.size < ptrWidth then ({ kfNone with tiny := true }, setLastByte w record.size)
      else ({ kfNone with small := true }, w)
    else (kfNone, rid)
  else (kfNone, rid)

/-- Result of `my_insert_nosplit`: status, the page as left behind, and the
blob allocator cursor. -/
structure NsRes where
  st : Status
  page : Page
  nextBlobId : Nat
  deriving DecidableEq, Repr

/-- `my_insert_nosplit` (btree_insert.c, 274-396): the slot-level writer.
The scanning loop either finds the key (OVERWRITE returns OK leaving the
slot untouched — the replacement block is commented out in the source —
else `DUPLICATE_KEY`), or opens the insertion slot, materialises the record
(blob for a leaf record wider than the pointer word, EMPTY/TINY/SMALL
inlining otherwise), writes key bytes, size and pointer, marks the page
dirty and bumps the count. -/
def my_insert_nosplit (page : Page) (key : HamKey) (rid : Nat)
    (record : HamRecord) (flags : InsFlags) (nextBlobId : Nat) : NsRes :=
  let node := page.node
  let count := node.count
  match scanPos node.slots key count with
  | ScanRes.dup _ =>
      if flags.overwrite then ⟨Status.ok, page, nextBlobId⟩
      else ⟨Status.duplicateKey, page, nextBlobId⟩
  | ScanRes.ins i =>
      let slots1 := if i < count then memmoveOpen node.slots i count else node.slots
      let alloc := node.isLeaf && decide (record.size > ptrWidth)
      let rid1 := if alloc then nextBlobId else rid
      let nb1 := if alloc then nextBlobId + 1 else nextBlobId
      let enc := recordEncode node.isLeaf record rid1
      let slot : IntKey := ⟨enc.1, enc.2, key.size, key.data⟩
      let slots2 := setSlot slots1 i slot
      ⟨Status.ok,
       { page with dirty := true, node := { node with count := count + 1, slots := slots2 } },
       nb1⟩

/-- Modelled from the spec: `btree_node_search_by_key` is implemented in the
find engine, which is not among the provided sources. Spec 4.2: a linear
scan locates the smallest index whose slot key is not below the search key;
only exact equality counts as found. -/
def searchAux (slots : List IntKey) (key : HamKey) : Nat → Nat → Option Nat
  | _, 0 => none
  | i, r + 1 =>
      match keyCompareIntToPub slots i key with
      | Ordering.eq => some i
      | Ordering.gt => none
      | Ordering.lt => searchAux slots key (i + 1) r

/-- Modelled from the spec (4.2): exact-equality ordered lookup in a node. -/
def btree_node_search_by_key (n : BtreeNode) (key : HamKey) : Option Nat :=
  searchAux n.slots key 0 n.count

/-- Modelled from the spec: `btree_traverse_tree` lives in btree.c, which is
not among the provided sources. Spec 4.3: in an internal node pick
`ptr_left` if the key is below slot 0, else the child of the greatest slot
key not exceeding the key. -/
def btree_traverse_tree (pg : Page) (key : HamKey) : Nat :=
  let n := pg.node
  match (List.range n.count).foldl
      (fun acc i =>
        if keyCompareIntToPub n.slots i key ≠ Ordering.gt then some i else acc)
      none with
  | none => n.ptrLeft
  | some i => (getSlotD n.slots i).ptr

/-- The root-to-leaf path the recursive insert takes, as a pure observer:
returns the id of the leaf reached, `none` when the fuel runs out. -/
def descendToLeaf (db : DB) : Nat → Nat → HamKey → Option Nat
  | 0, _, _ => none
  | fuel + 1, pid, key =>
      let node := (db.getPage pid).node
      if node.isLeaf then some pid
      else descendToLeaf db fuel (btree_traverse_tree (db.getPage pid) key) key

/-- Observable actions of the split's page-chain maintenance, in program
order: the `insert_nosplit` call with its NOFLUSH bit, the sibling-pointer
writes and the dirty marks. -/
inductive ChainEvent where
  | insertNosplit (pid : Nat) (noflush : Bool)
  | setLeft (pid val : Nat)
  | setRight (pid val : Nat)
  | markDirty (pid : Nat)
  deriving DecidableEq, Repr

/-- Result of the recursive insert machinery: status, database, the
scratchpad pivot (key, rid) and the chain-event trace. -/
structure InsRes where
  st : Status
  db : DB
  spKey : HamKey
  spRid : Nat
  trace : List ChainEvent
  deriving DecidableEq, Repr

/-- Result of the first phase of `my_insert_split` (btree_insert.c, 416-485):
allocate the sibling, move the upper slots over, record the pivot, adjust
the counts and (for internal nodes) the new sibling's `ptr_left`. -/
structure DivideRes where
  db : DB
  newPid : Nat
  pivot : Nat
  pivotKey : HamKey
  pivotRid : Nat
  deriving DecidableEq, Repr

/-- Phase one of `my_insert_split`: lines 416-485 of btree_insert.c.
For a leaf the new sibling receives slots `[pivot, count)`; for an internal
node slots `[pivot+1, count)`, and the pivot slot's pointer becomes the new
sibling's `ptr_left`. The pivot key is copied (`util_copy_key`) out of the
old page, whose backing slots are untouched — only its count shrinks. -/
def splitDivide (db : DB) (pid : Nat) : DivideRes :=
  let a := db.allocPage PageType.index
  let db1 := a.1
  let newPid := a.2
  let obtp := (db1.getPage pid).node
  let count := obtp.count
  let pivot := count / 2
  let moved :=
    if obtp.isLeaf then (obtp.slots.drop pivot).take (count - pivot)
    else (obtp.slots.drop (pivot + 1)).take (count - pivot - 1)
  let db2 := db1.mapPage newPid
    (fun p => { p with node := { p.node with slots := moved } })
  let pivSlot := getSlotD obtp.slots pivot
  let pivotKey : HamKey := ⟨pivSlot.kdata, pivSlot.size⟩
  let pivotRid := newPid
  let db3 := (db2.mapPage pid
      (fun p => { p with node := { p.node with count := pivot } })).mapPage newPid
      (fun p => { p with node := { p.node with
        count := if obtp.isLeaf then count - pivot else count - pivot - 1 } })
  let db4 :=
    if obtp.isLeaf then db3
    else db3.mapPage newPid
      (fun p => { p with node := { p.node with ptrLeft := pivSlot.ptr } })
  ⟨db4, newPid, pivot, pivotKey, pivotRid⟩

/-- `my_insert_split` (btree_insert.c, 398-531): divide the node, insert the
new element into the new sibling when the pivot key does not exceed it
(`cmp <= 0`), else into the old node — both through `my_insert_nosplit`
with `flags|NOFLUSH` — then splice the sibling chain in the order
new.left, new.right, old.right, old.right.left (the last only when the old
right sibling exists), mark the touched pages dirty, and hand the pivot
key/rid to the scratchpad, returning SPLIT. -/
def my_insert_split (db : DB) (pid : Nat) (key : HamKey) (rid : Nat)
    (flags : InsFlags) (sp : Scratch) : InsRes :=
  let d := splitDivide db pid
  let cmp := keyCompareIntToPub ((d.db.getPage pid).node.slots) d.pivot key
  let target := if cmp = Ordering.gt then pid else d.newPid
  let r := my_insert_nosplit (d.db.getPage target) key rid sp.record
      { flags with noflush := true } d.db.nextBlobId
  let db5 := (d.db.setPage target r.page).withNextBlob r.nextBlobId
  let tr0 := [ChainEvent.insertNosplit target true]
  if r.st = Status.ok then
    let obtp := (db5.getPage pid).node
    let sibId := obtp.right
    let oldsib := if sibId ≠ 0 then db5.fetchPage sibId else none
    let db6 := db5.mapPage d.newPid
      (fun p => { p with node := { p.node with left := pid } })
    let db7 := db6.mapPage d.newPid
      (fun p => { p with node := { p.node with right := sibId } })
    let db8 := db7.mapPage pid
      (fun p => { p with node := { p.node with right := d.newPid } })
    let db9 :=
      match oldsib with
      | some _ =>
          (db8.mapPage sibId
            (fun p => { p with node := { p.node with left := d.newPid } })).mapPage sibId
            (fun p => { p with dirty := true })
      | none => db8
    let db10 := (db9.mapPage d.newPid (fun p => { p with dirty := true })).mapPage pid
      (fun p => { p with dirty := true })
    let tr := tr0 ++ [ChainEvent.setLeft d.newPid pid, ChainEvent.setRight d.newPid sibId,
        ChainEvent.setRight pid d.newPid] ++
      (match oldsib with
       | some _ => [ChainEvent.setLeft sibId d.newPid, ChainEvent.markDirty sibId]
       | none => []) ++
      [ChainEvent.markDirty d.newPid, ChainEvent.markDirty pid]
    ⟨Status.split, db10, d.pivotKey, d.pivotRid, tr⟩
  else ⟨r.st, db5, sp.key, sp.rid, tr0⟩

/-- `my_insert_in_page` (btree_insert.c, 239-272): go through
`my_insert_nosplit` while the page has room; on a full leaf search first —
an existing key is overwritten (OVERWRITE) or rejected (`DUPLICATE_KEY`)
without splitting — otherwise split. -/
def my_insert_in_page (db : DB) (pid : Nat) (key : HamKey) (rid : Nat)
    (flags : InsFlags) (sp : Scratch) : InsRes :=
  let pg := db.getPage pid
  if pg.node.count < db.maxkeys then
    let r := my_insert_nosplit pg key rid sp.record flags db.nextBlobId
    ⟨r.st, (db.setPage pid r.page).withNextBlob r.nextBlobId, sp.key, sp.rid, []⟩
  else
    if pg.node.isLeaf then
      match btree_node_search_by_key pg.node key with
      | some _ =>
          if flags.overwrite then
            let r := my_insert_nosplit pg key rid sp.record flags db.nextBlobId
            ⟨r.st, (db.setPage pid r.page).withNextBlob r.nextBlobId, sp.key, sp.rid, []⟩
          else ⟨Status.duplicateKey, db, sp.key, sp.rid, []⟩
      | none => my_insert_split db pid key rid flags sp
    else my_insert_split db pid key rid flags sp

/-- `my_insert_recursive` (btree_insert.c, 182-237): insert at the leaf with
flags `0` — the caller's flags stay in the scratchpad and are never
forwarded — else recurse into the traversed child and, on SPLIT, insert the
propagated pivot into this page with OVERWRITE. Recursion depth is bounded
by fuel, a pure embedding artifact. -/
def my_insert_recursive : Nat → DB → Nat → HamKey → Nat → Scratch → InsRes
  | 0, db, _, _, _, sp => ⟨Status.fuelExhausted, db, sp.key, sp.rid, []⟩
  | fuel + 1, db, pid, key, rid, sp =>
      let node := (db.getPage pid).node
      if node.isLeaf then my_insert_in_page db pid key rid insFlags0 sp
      else
        let childId := btree_traverse_tree (db.getPage pid) key
        let r := my_insert_recursive fuel db childId key rid sp
        match r.st with
        | Status.split =>
            let r2 := my_insert_in_page r.db pid r.spKey r.spRid insFlagsOverwrite
                { sp with key := r.spKey, rid := r.spRid }
            { r2 with trace := r.trace ++ r2.trace }
        | _ => r

/-- The scratchpad as `btree_insert` initialises it (memset plus record and
flags). -/
def initScratch (record : HamRecord) (flags : InsFlags) : Scratch :=
  ⟨record, ⟨0, 0⟩, 0, flags⟩

/-- The recursion exactly as `btree_insert` starts it on the root page. -/
def btInsertRec (db : DB) (key : HamKey) (record : HamRecord)
    (flags : InsFlags) (fuel : Nat) : InsRes :=
  my_insert_recursive fuel db db.rootpage key 0 (initScratch record flags)

/-- `btree_insert` (btree_insert.c, 104-180): run the recursion from the
root; when it reports SPLIT, allocate a new root page, point its `ptr_left`
at the old root, insert the scratchpad pivot into it with NOFLUSH, install
the new root page id, mark the database dirty and retype the old root as an
ordinary index page without freeing it. -/
def btree_insert (db : DB) (key : HamKey) (record : HamRecord)
    (flags : InsFlags) (fuel : Nat) : Status × DB :=
  let r := btInsertRec db key record flags fuel
  if r.st = Status.split then
    let a := r.db.allocPage PageType.root
    let db1 := a.1
    let newRoot := a.2
    let db2 := db1.mapPage newRoot
      (fun p => { p with node := { p.node with ptrLeft := db.rootpage } })
    let r2 := my_insert_nosplit (db2.getPage newRoot) r.spKey r.spRid record
        ⟨true, false⟩ db2.nextBlobId
    let db3 := (db2.setPage newRoot r2.page).withNextBlob r2.nextBlobId
    if r2.st = Status.ok then
      let db4 := (db3.setRootpage newRoot).setDbDirty
      let db5 := db4.mapPage db.rootpage (fun p => { p with ptype := PageType.index })
      (Status.ok, db5)
    else (r2.st, db3)
  else (r.st, r.db)

/-- Observable calls into the transaction manager. -/
inductive TxnEvent where
  | tbegin
  | tcommit
  | tabort
  deriving DecidableEq, Repr

/-- Modelled from the spec: `ham_txn_begin` (transaction manager, consumed
interface only). Beginning a transaction registers it on the database, so
nested operations see an active transaction. -/
def txnBegin (db : DB) : DB := { db with activeTxn := true }

/-- Modelled from the spec: `ham_txn_commit`. -/
def txnCommit (db : DB) : DB := { db with activeTxn := false }

/-- Modelled from the spec: `ham_txn_abort`. -/
def txnAbort (db : DB) : DB := { db with activeTxn := false }

/-- Result of a cursor-level operation: status, the cursor as left behind,
the database, and the transaction-manager calls issued, in order. -/
structure CRes where
  st : Status
  c : BtCursor
  db : DB
  tr : List TxnEvent
  deriving DecidableEq, Repr

def pageAddCursor (cid : Nat) (p : Page) : Page :=
  { p with cursors := cid :: p.cursors }

def pageRemoveCursor (cid : Nat) (p : Page) : Page :=
  { p with cursors := p.cursors.filter (fun x => x ≠ cid) }

/-- `bt_cursor_set_to_nil` (btree_cursor.c, 364-392): an uncoupled cursor
frees its cached key; a coupled one is removed from its page's cursor list;
the duplicate id is cleared. -/
def bt_cursor_set_to_nil (db : DB) (c : BtCursor) : Status × BtCursor × DB :=
  if c.uncoupled then
    (Status.ok, { c with uncoupled := false, uncoupledKey := none, dupeId := 0 }, db)
  else if c.coupled then
    (Status.ok, { c with coupled := false, dupeId := 0 },
     db.mapPage c.coupledPage (pageRemoveCursor c.cid))
  else (Status.ok, { c with dupeId := 0 }, db)

/-- Modelled from the spec: `btree_find_cursor` belongs to the find engine
(4.6), not among the provided sources: descend to the leaf that would hold
the key; on exact match couple the cursor there and return OK, else
`KEY_NOT_FOUND` with the cursor left NIL. -/
def btree_find_cursor (db : DB) (c : BtCursor) (key : HamKey) (fuel : Nat) :
    Status × BtCursor × DB :=
  match descendToLeaf db fuel db.rootpage key with
  | none => (Status.keyNotFound, c, db)
  | some lp =>
      match btree_node_search_by_key (db.getPage lp).node key with
      | some i =>
          (Status.ok,
           { c with coupled := true, coupledPage := lp, coupledIndex := i, dupeId := 0 },
           db.mapPage lp (pageAddCursor c.cid))
      | none => (Status.keyNotFound, c, db)

/-- `bt_cursor_find` (btree_cursor.c, 955-1002): local transaction around
set-to-nil plus the backend find. -/
def bt_cursor_find (db : DB) (c : BtCursor) (key : HamKey) (fuel : Nat) : CRes :=
  if !db.hasBackend then ⟨Status.notInitialized, c, db, []⟩
  else
    let localTxn := !db.activeTxn
    let db1 := if localTxn then txnBegin db else db
    let tr1 : List TxnEvent := if localTxn then [TxnEvent.tbegin] else []
    let t := bt_cursor_set_to_nil db1 c
    let f := btree_find_cursor t.2.2 t.2.1 key fuel
    if f.1 = Status.ok then
      if localTxn then ⟨Status.ok, f.2.1, txnCommit f.2.2, tr1 ++ [TxnEvent.tcommit]⟩
      else ⟨Status.ok, f.2.1, f.2.2, tr1⟩
    else
      if localTxn then ⟨f.1, f.2.1, txnAbort f.2.2, tr1 ++ [TxnEvent.tabort]⟩
      else ⟨f.1, f.2.1, f.2.2, tr1⟩

/-- `bt_cursor_couple` (btree_cursor.c, 394-441): copy the cached key and
find it, under a local transaction when none is active. -/
def bt_cursor_couple (db : DB) (c : BtCursor) (fuel : Nat) : CRes :=
  let localTxn := !db.activeTxn
  let db1 := if localTxn then txnBegin db else db
  let tr1 : List TxnEvent := if localTxn then [TxnEvent.tbegin] else []
  let key := c.uncoupledKey.getD ⟨0, 0⟩
  let f := bt_cursor_find db1 c key fuel
  if localTxn then
    if f.st = Status.ok then ⟨Status.ok, f.c, txnCommit f.db, tr1 ++ f.tr ++ [TxnEvent.tcommit]⟩
    else ⟨f.st, f.c, txnAbort f.db, tr1 ++ f.tr ++ [TxnEvent.tabort]⟩
  else ⟨f.st, f.c, f.db, tr1 ++ f.tr⟩

/-- `bt_cursor_uncouple` (btree_cursor.c, 443-510): copy the coupled slot's
key into an owned buffer, optionally drop out of the page's cursor list, and
flip the mode bits, under a local transaction when none is active. -/
def bt_cursor_uncouple (db : DB) (c : BtCursor) (noRemove : Bool) : CRes :=
  if c.uncoupled then ⟨Status.ok, c, db, []⟩
  else if !c.coupled then ⟨Status.ok, c, db, []⟩
  else
    let localTxn := !db.activeTxn
    let db1 := if localTxn then txnBegin db else db
    let tr1 : List TxnEvent := if localTxn then [TxnEvent.tbegin] else []
    let node := (db1.getPage c.coupledPage).node
    let entry := getSlotD node.slots c.coupledIndex
    let key : HamKey := ⟨entry.kdata, entry.size⟩
    let db2 := if !noRemove then db1.mapPage c.coupledPage (pageRemoveCursor c.cid) else db1
    let c1 := { c with coupled := false, uncoupled := true, uncoupledKey := some key }
    if localTxn then ⟨Status.ok, c1, txnCommit db2, tr1 ++ [TxnEvent.tcommit]⟩
    else ⟨Status.ok, c1, db2, tr1⟩

/-- The `HAM_CURSOR_FIRST/LAST/NEXT/PREVIOUS` bits of a move's flags word. -/
structure MoveFlags where
  first : Bool
  last : Bool
  next : Bool
  prev : Bool
  deriving DecidableEq, Repr

def mfFirst : MoveFlags := ⟨true, false, false, false⟩
def mfLast : MoveFlags := ⟨false, true, false, false⟩
def mfNext : MoveFlags := ⟨false, false, true, false⟩
def mfPrev : MoveFlags := ⟨false, false, false, true⟩
def mfNone : MoveFlags := ⟨false, false, false, false⟩

/-- The descent loop of `my_move_first` (btree_cursor.c, 57-72): stop with
`KEY_NOT_FOUND` on an empty node, stop at a leaf, else follow `ptr_left`. -/
def moveFirstLoop (db : DB) : Nat → Nat → Status × Nat
  | 0, pid => (Status.fuelExhausted, pid)
  | fuel + 1, pid =>
      match db.fetchPage pid with
      | none => (Status.keyNotFound, pid)
      | some pg =>
          if pg.node.count = 0 then (Status.keyNotFound, pid)
          else if pg.node.isLeaf then (Status.ok, pid)
          else moveFirstLoop db fuel pg.node.ptrLeft

/-- The descent loop of `my_move_last` (btree_cursor.c, 320-339): like
`moveFirstLoop` but following the pointer of the last live slot. -/
def moveLastLoop (db : DB) : Nat → Nat → Status × Nat
  | 0, pid => (Status.fuelExhausted, pid)
  | fuel + 1, pid =>
      match db.fetchPage pid with
      | none => (Status.keyNotFound, pid)
      | some pg =>
          if pg.node.count = 0 then (Status.keyNotFound, pid)
          else if pg.node.isLeaf then (Status.ok, pid)
          else moveLastLoop db fuel (getSlotD pg.node.slots (pg.node.count - 1)).ptr

/-- `my_move_first` (btree_cursor.c, 26-86): set the cursor to NIL, fail with
`KEY_NOT_FOUND` when there is no root page or an empty node is met, else
descend along `ptr_left` and couple to slot 0 of the leaf. -/
def my_move_first (db : DB) (c : BtCursor) (fuel : Nat) : Status × BtCursor × DB :=
  let t := bt_cursor_set_to_nil db c
  let c1 := t.2.1
  let db0 := t.2.2
  if db0.rootpage = 0 then (Status.keyNotFound, c1, db0)
  else
    match db0.fetchPage db0.rootpage with
    | none => (Status.keyNotFound, c1, db0)
    | some _ =>
        match moveFirstLoop db0 fuel db0.rootpage with
        | (Status.ok, lp) =>
            (Status.ok,
             { c1 with coupled := true, coupledPage := lp, coupledIndex := 0, dupeId := 0 },
             db0.mapPage lp (pageAddCursor c1.cid))
        | (st, _) => (st, c1, db0)

/-- `my_move_last` (btree_cursor.c, 289-362): symmetric to `my_move_first`,
coupling to slot `count-1` of the rightmost leaf. -/
def my_move_last (db : DB) (c : BtCursor) (fuel : Nat) : Status × BtCursor × DB :=
  let t := bt_cursor_set_to_nil db c
  let c1 := t.2.1
  let db0 := t.2.2
  if db0.rootpage = 0 then (Status.keyNotFound, c1, db0)
  else
    match db0.fetchPage db0.rootpage with
    | none => (Status.keyNotFound, c1, db0)
    | some _ =>
        match moveLastLoop db0 fuel db0.rootpage with
        | (Status.ok, lp) =>
            let idx := (db0.getPage lp).node.count - 1
            (Status.ok,
             { c1 with coupled := true, coupledPage := lp, coupledIndex := idx, dupeId := 0 },
             db0.mapPage lp (pageAddCursor c1.cid))
        | (st, _) => (st, c1, db0)

/-- The in-page stepping of `my_move_next` (btree_cursor.c, 142-178) once the
cursor is coupled. -/
def moveNextStep (db : DB) (c : BtCursor) (tr : List TxnEvent) : CRes :=
  let node := (db.getPage c.coupledPage).node
  if c.coupledIndex + 1 < node.count then
    ⟨Status.ok, { c with coupledIndex := c.coupledIndex + 1, dupeId := 0 }, db, tr⟩
  else if node.right = 0 then ⟨Status.keyNotFound, c, db, tr⟩
  else
    let db1 := db.mapPage c.coupledPage (pageRemoveCursor c.cid)
    let c1 := { c with coupled := false }
    match db1.fetchPage node.right with
    | none => ⟨Status.keyNotFound, c1, db1, tr⟩
    | some _ =>
        ⟨Status.ok,
         { c1 with coupled := true, coupledPage := node.right, coupledIndex := 0, dupeId := 0 },
         db1.mapPage node.right (pageAddCursor c.cid), tr⟩

/-- `my_move_next` (btree_cursor.c, 88-179): couple an uncoupled cursor, fail
with `CURSOR_IS_NIL` on a NIL one, then step forward, crossing to slot 0 of
the right sibling at the end of the page. -/
def my_move_next (db : DB) (c : BtCursor) (fuel : Nat) : CRes :=
  if c.uncoupled then
    let r := bt_cursor_couple db c fuel
    if r.st = Status.ok then moveNextStep r.db r.c r.tr else r
  else if !c.coupled then ⟨Status.cursorIsNil, c, db, []⟩
  else moveNextStep db c []

/-- The in-page stepping of `my_move_previous` (btree_cursor.c, 236-286). -/
def movePrevStep (db : DB) (c : BtCursor) (tr : List TxnEvent) : CRes :=
  let node := (db.getPage c.coupledPage).node
  if c.coupledIndex ≠ 0 then
    ⟨Status.ok, { c with coupledIndex := c.coupledIndex - 1, dupeId := 0 }, db, tr⟩
  else if node.left = 0 then ⟨Status.keyNotFound, c, db, tr⟩
  else
    let db1 := db.mapPage c.coupledPage (pageRemoveCursor c.cid)
    let c1 := { c with coupled := false }
    match db1.fetchPage node.left with
    | none => ⟨Status.keyNotFound, c1, db1, tr⟩
    | some lpg =>
        let idx := lpg.node.count - 1
        ⟨Status.ok,
         { c1 with coupled := true, coupledPage := node.left, coupledIndex := idx, dupeId := 0 },
         db1.mapPage node.left (pageAddCursor c.cid), tr⟩

/-- `my_move_previous` (btree_cursor.c, 181-287). -/
def my_move_previous (db : DB) (c : BtCursor) (fuel : Nat) : CRes :=
  if c.uncoupled then
    let r := bt_cursor_couple db c fuel
    if r.st = Status.ok then movePrevStep r.db r.c r.tr else r
  else if !c.coupled then ⟨Status.cursorIsNil, c, db, []⟩
  else movePrevStep db c []

/-- The tail of `bt_cursor_move` (btree_cursor.c, 894-952): abort on error;
otherwise pin the page, decode the requested key and record — the decoders
(`util_read_key`, `util_read_record`, spec 4.9) succeed in the model — and
commit the local transaction. -/
def moveReadFinish (localTxn : Bool) (st : Status) (c : BtCursor) (db : DB)
    (tr : List TxnEvent) : CRes :=
  if st ≠ Status.ok then
    if localTxn then ⟨st, c, txnAbort db, tr ++ [TxnEvent.tabort]⟩
    else ⟨st, c, db, tr⟩
  else
    if localTxn then ⟨Status.ok, c, txnCommit db, tr ++ [TxnEvent.tcommit]⟩
    else ⟨Status.ok, c, db, tr⟩

/-- `bt_cursor_move` (btree_cursor.c, 835-953): open a local transaction when
none is active; a NIL cursor rewrites NEXT into FIRST and PREVIOUS into
LAST; dispatch on the direction; with no direction a NIL cursor yields
`CURSOR_IS_NIL` exactly when a key or a record buffer was supplied, else OK;
an uncoupled cursor with no direction is coupled; finally read the requested
key/record and commit or abort. -/
def bt_cursor_move (db : DB) (c : BtCursor) (wantKey wantRec : Bool)
    (flags : MoveFlags) (fuel : Nat) : CRes :=
  if !db.hasBackend then ⟨Status.notInitialized, c, db, []⟩
  else
    let localTxn := !db.activeTxn
    let db1 := if localTxn then txnBegin db else db
    let tr1 : List TxnEvent := if localTxn then [TxnEvent.tbegin] else []
    let fl :=
      if btCursorIsNil c then
        if flags.next then { flags with next := false, first := true }
        else if flags.prev then { flags with prev := false, last := true }
        else flags
      else flags
    if fl.first then
      let m := my_move_first db1 c fuel
      moveReadFinish localTxn m.1 m.2.1 m.2.2 tr1
    else if fl.last then
      let m := my_move_last db1 c fuel
      moveReadFinish localTxn m.1 m.2.1 m.2.2 tr1
    else if fl.next then
      let m := my_move_next db1 c fuel
      moveReadFinish localTxn m.st m.c m.db (tr1 ++ m.tr)
    else if fl.prev then
      let m := my_move_previous db1 c fuel
      moveReadFinish localTxn m.st m.c m.db (tr1 ++ m.tr)
    else if btCursorIsNil c then
      let db2 := if localTxn then txnAbort db1 else db1
      let tr2 := tr1 ++ (if localTxn then [TxnEvent.tabort] else [])
      if wantKey || wantRec then ⟨Status.cursorIsNil, c, db2, tr2⟩
      else ⟨Status.ok, c, db2, tr2⟩
    else if c.uncoupled then
      let r := bt_cursor_couple db1 c fuel
      moveReadFinish localTxn r.st r.c r.db (tr1 ++ r.tr)
    else moveReadFinish localTxn Status.ok c db1 tr1

/-- Slot removal used by the modelled erase: shift the live slots after `i`
one stride left and decrement the count. -/
def removeSlot (i : Nat) (p : Page) : Page :=
  let n := p.node
  { p with dirty := true, node := { n with
      count := n.count - 1,
      slots := n.slots.take i ++ n.slots.drop (i + 1) } }

/-- Modelled from the spec: `btree_erase_cursor` belongs to the erase engine
(4.5), which is not among the provided sources: a direct key-driven removal
returning `KEY_NOT_FOUND` for an absent key; merge/rebalance policies are
delegated and not modelled. -/
def btree_erase_cursor (db : DB) (key : HamKey) (fuel : Nat) : Status × DB :=
  match descendToLeaf db fuel db.rootpage key with
  | none => (Status.keyNotFound, db)
  | some lp =>
      match btree_node_search_by_key (db.getPage lp).node key with
      | some i => (Status.ok, db.mapPage lp (removeSlot i))
      | none => (Status.keyNotFound, db)

/-- The part of `bt_cursor_erase` after the cursor has been uncoupled
(btree_cursor.c, 1082-1099): erase by the owned key, abort on failure, set
the cursor to NIL and commit. -/
def eraseRest (localTxn : Bool) (db : DB) (c : BtCursor) (tr : List TxnEvent)
    (fuel : Nat) : CRes :=
  let e := btree_erase_cursor db (c.uncoupledKey.getD ⟨0, 0⟩) fuel
  if e.1 ≠ Status.ok then
    if localTxn then ⟨e.1, c, txnAbort e.2, tr ++ [TxnEvent.tabort]⟩
    else ⟨e.1, c, e.2, tr⟩
  else
    let t := bt_cursor_set_to_nil e.2 c
    if localTxn then ⟨Status.ok, t.2.1, txnCommit t.2.2, tr ++ [TxnEvent.tcommit]⟩
    else ⟨Status.ok, t.2.1, t.2.2, tr⟩

/-- `bt_cursor_erase` (btree_cursor.c, 1053-1100): begin a local transaction
when none is active, uncouple a coupled cursor, reject a NIL one with
`CURSOR_IS_NIL`, erase by the owned key, set the cursor to NIL, then commit.
Note the uncouple-failure and NIL returns hand control back without
committing or aborting the transaction begun above — exactly as the
source does. -/
def bt_cursor_erase (db : DB) (c : BtCursor) (fuel : Nat) : CRes :=
  if !db.hasBackend then ⟨Status.notInitialized, c, db, []⟩
  else
    let localTxn := !db.activeTxn
    let db1 := if localTxn then txnBegin db else db
    let tr1 : List TxnEvent := if localTxn then [TxnEvent.tbegin] else []
    if c.coupled then
      let r := bt_cursor_uncouple db1 c false
      if r.st ≠ Status.ok then ⟨r.st, r.c, r.db, tr1 ++ r.tr⟩
      else eraseRest localTxn r.db r.c (tr1 ++ r.tr) fuel
    else if !c.uncoupled then ⟨Status.cursorIsNil, c, db1, tr1⟩
    else eraseRest localTxn db1 c tr1 fuel

/-- Association-list lookup for the database's cursor store. -/
def cursorsFind : List (Nat × BtCursor) → Nat → Option BtCursor
  | [], _ => none
  | e :: es, cid => if e.1 = cid then some e.2 else cursorsFind es cid

def cursorsMap (f : BtCursor → BtCursor) : List (Nat × BtCursor) → Nat → List (Nat × BtCursor)
  | [], _ => []
  | e :: es, cid =>
      (if e.1 = cid then (e.1, f e.2) else e) :: cursorsMap f es cid

def DB.findCursor (db : DB) (cid : Nat) : Option BtCursor := cursorsFind db.cstore cid

def DB.mapCursor (db : DB) (cid : Nat) (f : BtCursor → BtCursor) : DB :=
  { db with cstore := cursorsMap f db.cstore cid }

/-- `ham_mem_free(c)`: the cursor disappears from the store. -/
def DB.removeCursor (db : DB) (cid : Nat) : DB :=
  { db with cstore := db.cstore.filter (fun e => e.1 ≠ cid) }

/-- `bt_cursor_set_to_nil` applied to a cursor stored in the database. -/
def setToNilStored (db : DB) (cid : Nat) : DB :=
  match db.findCursor cid with
  | none => db
  | some cu =>
      let t := bt_cursor_set_to_nil db cu
      t.2.2.mapCursor cid (fun _ => t.2.1)

/-- `bt_cursor_close` (btree_cursor.c, 622-646): unlink the cursor from the
database's doubly linked cursor list — when the predecessor exists its next
pointer is fixed, else the list head; when the successor exists its prev
pointer is fixed, **else the list head is set to null** — then set the
cursor to NIL and free it. Links use 0 for the null pointer. -/
def bt_cursor_close (db : DB) (cid : Nat) : Status × DB :=
  match db.findCursor cid with
  | none => (Status.invParameter, db)
  | some cu =>
      let p := cu.prev
      let n := cu.next
      let db1 :=
        if p ≠ 0 then db.mapCursor p (fun x => { x with next := n })
        else { db with cursorsHead := n }
      let db2 :=
        if n ≠ 0 then db1.mapCursor n (fun x => { x with prev := p })
        else { db1 with cursorsHead := 0 }
      let db3 := setToNilStored db2 cid
      (Status.ok, db3.removeCursor cid)

/-- The cursors reachable from the database's cursor-list head by following
`next` links (0 terminates; fuel bounds pathological link cycles). -/
def cursorChain (db : DB) : Nat → Nat → List Nat
  | 0, _ => []
  | _ + 1, 0 => []
  | fuel + 1, cid =>
      match db.findCursor cid with
      | none => [cid]
      | some cu => cid :: cursorChain db fuel cu.next

lemma pagesFind_pagesMap (f : Page → Page) (l : List (Nat × Page)) (pid q : Nat) :
    pagesFind (pagesMap f l pid) q =
      if q = pid then (pagesFind l q).map f else pagesFind l q := by
  induction l with
  | nil => simp [pagesFind, pagesMap]
  | cons e es ih =>
    by_cases h1 : e.1 = pid
    · by_cases h2 : e.1 = q
      · simp [pagesFind, pagesMap, h1, h2, h1 ▸ h2.symm]
      · have hq : ¬ (q = e.1) := fun h => h2 h.symm
        have hpq : ¬ (pid = q) := fun h => h2 (h1.trans h)
        have hqp : ¬ (q = pid) := fun h => hpq h.symm
        simp [pagesFind, pagesMap, h1, h2, hq, hpq, hqp, ih]
    · by_cases h2 : e.1 = q
      · have : ¬ (q = pid) := fun h => h1 (h2.trans h)
        simp [pagesFind, pagesMap, h1, h2, this]
      · simp [pagesFind, pagesMap, h1, h2, ih]

lemma pagesFind_append (l1 l2 : List (Nat × Page)) (pid : Nat) :
    pagesFind (l1 ++ l2) pid =
      match pagesFind l1 pid with
      | some p => some p
      | none => pagesFind l2 pid := by
  induction l1 with
  | nil => simp [pagesFind]
  | cons e es ih =>
    by_cases h : e.1 = pid
    · simp [pagesFind, h]
    · simp [pagesFind, h, ih]

lemma pagesMap_not_mem (f : Page → Page) (l : List (Nat × Page)) (pid : Nat)
    (h : pagesFind l pid = none) : pagesMap f l pid = l := by
  induction l with
  | nil => simp [pagesMap]
  | cons e es ih =>
    by_cases h1 : e.1 = pid
    · simp [pagesFind, h1] at h
    · simp [pagesFind, h1] at h
      simp [pagesMap, h1, ih h]

lemma pagesFind_nodup_tail (e : Nat × Page) (es : List (Nat × Page))
    (hn : ((e :: es).map Prod.fst).Nodup) : pagesFind es e.1 = none := by
  induction es with
  | nil => simp [pagesFind]
  | cons a as ih =>
    by_cases h1 : a.1 = e.1
    · exfalso
      simp [List.nodup_cons] at hn
      exact hn.1.1 h1.symm
    · simp [pagesFind, h1]
      apply ih
      simp [List.nodup_cons] at hn ⊢
      refine ⟨fun h => hn.1.2 h, hn.2.2⟩

lemma pagesMap_set_same (l : List (Nat × Page)) (pid : Nat) (pg : Page)
    (hn : (l.map Prod.fst).Nodup) (h : pagesFind l pid = some pg) :
    pagesMap (fun _ => pg) l pid = l := by
  induction l with
  | nil => simp [pagesMap]
  | cons e es ih =>
    by_cases h1 : e.1 = pid
    · simp [pagesFind, h1] at h
      have hnone : pagesFind es pid = none := h1 ▸ pagesFind_nodup_tail e es hn
      obtain ⟨a, b⟩ := e
      simp only at h1 h
      subst h1
      subst h
      simp [pagesMap, pagesMap_not_mem _ _ _ hnone]
    · simp [pagesFind, h1] at h
      simp [List.nodup_cons] at hn
      simp [pagesMap, h1, ih hn.2 h]

lemma DB.fetchPage_mapPage (db : DB) (pid : Nat) (f : Page → Page) (q : Nat) :
    (db.mapPage pid f).fetchPage q =
      if q = pid then (db.fetchPage q).map f else db.fetchPage q := by
  simp [DB.fetchPage, DB.mapPage, pagesFind_pagesMap]

lemma DB.fetchPage_setPage (db : DB) (pid : Nat) (pg : Page) (q : Nat) :
    (db.setPage pid pg).fetchPage q =
      if q = pid then (db.fetchPage q).map (fun _ => pg) else db.fetchPage q := by
  simp [DB.setPage, DB.fetchPage_mapPage]

lemma DB.fetchPage_alloc (db : DB) (t : PageType) (q : Nat) :
    ((db.allocPage t).1).fetchPage q =
      match db.fetchPage q with
      | some p => some p
      | none => if q = db.nextPageId then some ⟨t, emptyNode, false, []⟩ else none := by
  simp only [DB.fetchPage, DB.allocPage, pagesFind_append]
  cases h : pagesFind db.pages q with
  | none => simp [pagesFind, eq_comm]
  | some p => simp

lemma DB.setPage_same (db : DB) (pid : Nat) (pg : Page)
    (hn : (db.pages.map Prod.fst).Nodup) (h : db.fetchPage pid = some pg) :
    db.setPage pid pg = db := by
  have : pagesMap (fun _ => pg) db.pages pid = db.pages :=
    pagesMap_set_same db.pages pid pg hn h
  simp [DB.setPage, DB.mapPage, this]

lemma DB.withNextBlob_self (db : DB) : db.withNextBlob db.nextBlobId = db := rfl

lemma searchAux_scanAux (slots : List IntKey) (key : HamKey) :
    ∀ r i j, searchAux slots key i r = some j → scanAux slots key i r = ScanRes.dup j := by
  intro r
  induction r with
  | zero => intro i j h; simp [searchAux] at h
  | succ n ih =>
    intro i j h
    simp only [searchAux] at h
    simp only [scanAux]
    cases hc : keyCompareIntToPub slots i key with
    | eq => simp [hc] at h; simp [h]
    | gt => simp [hc] at h
    | lt => simp [hc] at h; exact ih (i + 1) j h

lemma scanAux_ins_le (slots : List IntKey) (key : HamKey) :
    ∀ r i j, scanAux slots key i r = ScanRes.ins j → j ≤ i + r := by
  intro r
  induction r with
  | zero => intro i j h; simp [scanAux] at h; omega
  | succ n ih =>
    intro i j h
    simp only [scanAux] at h
    cases hc : keyCompareIntToPub slots i key with
    | eq => simp [hc] at h
    | gt => simp [hc] at h; omega
    | lt =>
      simp [hc] at h
      have := ih (i + 1) j h
      omega

lemma scanAux_dup_spec (slots : List IntKey) (key : HamKey) :
    ∀ r i j, scanAux slots key i r = ScanRes.dup j →
      j < i + r ∧ (getSlotD slots j).kdata = key.data := by
  intro r
  induction r with
  | zero => intro i j h; simp [scanAux] at h
  | succ n ih =>
    intro i j h
    simp only [scanAux] at h
    cases hc : keyCompareIntToPub slots i key with
    | eq =>
      simp [hc] at h
      subst h
      refine ⟨by omega, ?_⟩
      have := compare_eq_iff_eq.mp hc
      exact this
    | gt => simp [hc] at h
    | lt =>
      simp [hc] at h
      have := ih (i + 1) j h
      exact ⟨by omega, this.2⟩

lemma getSlotD_setSlot_self : ∀ (l : List IntKey) (i : Nat) (s : IntKey),
    getSlotD (setSlot l i s) i = s := by
  intro l
  induction l with
  | nil =>
    intro i s
    induction i with
    | zero => simp [setSlot, getSlotD]
    | succ n ihn => simp [setSlot, getSlotD, List.getD] at ihn ⊢; exact ihn
  | cons x xs ih =>
    intro i s
    cases i with
    | zero => simp [setSlot, getSlotD]
    | succ n => simp [setSlot, getSlotD, List.getD] at ih ⊢; exact ih n s

lemma range_map_getSlotD (l : List IntKey) :
    ∀ c, c ≤ l.length → (List.range c).map (getSlotD l) = l.take c := by
  intro c
  induction c with
  | zero => simp
  | succ n ih =>
    intro h
    have hn : n ≤ l.length := Nat.le_of_succ_le h
    have hlt : n < l.length := h
    rw [List.range_succ, List.map_append, ih hn, List.take_succ]
    simp [getSlotD, List.getD, List.getElem?_eq_getElem hlt]

lemma liveSlots_eq (n : BtreeNode) (h : n.count ≤ n.slots.length) :
    liveSlots n = n.slots.take n.count :=
  range_map_getSlotD n.slots n.count h

/-- A successful `my_insert_nosplit` leaves the key among the live slots:
either it was already there (OVERWRITE on an exact match) or it was just
written at the insertion index. -/
lemma nosplit_ok_has_key (page : Page) (key : HamKey) (rid : Nat)
    (record : HamRecord) (flags : InsFlags) (nb : Nat)
    (h : (my_insert_nosplit page key rid record flags nb).st = Status.ok) :
    nodeHasLiveKey (my_insert_nosplit page key rid record flags nb).page.node key = true := by
  unfold my_insert_nosplit at h ⊢
  cases hs : scanPos page.node.slots key page.node.count with
  | dup i =>
    simp only [hs] at h ⊢
    by_cases ho : flags.overwrite
    · have hspec := scanAux_dup_spec page.node.slots key page.node.count 0 i hs
      simp only [ho, if_true] at h ⊢
      simp only [nodeHasLiveKey, List.any_eq_true]
      refine ⟨i, ?_, ?_⟩
      · simp [List.mem_range]; omega
      · simp [hspec.2]
    · simp [ho] at h
  | ins i =>
    have hle : i ≤ page.node.count := by
      have := scanAux_ins_le page.node.slots key page.node.count 0 i hs
      omega
    simp only [hs] at h ⊢
    simp only [nodeHasLiveKey, List.any_eq_true]
    refine ⟨i, ?_, ?_⟩
    · simp [List.mem_range]; omega
    · simp [getSlotD_setSlot_self]

/-- Core duplicate-rejection fact shared by the claims about duplicate
inserts: when the descent reaches a leaf that already holds the key, the
recursive insert reports `DUPLICATE_KEY` and returns the database exactly
as it received it — regardless of the caller's flags, which the leaf-level
call drops. -/
lemma insert_recursive_existing_dup (key : HamKey) :
    ∀ (fuel : Nat) (db : DB) (pid rid : Nat) (sp : Scratch) (lp : Nat) (pg : Page) (i : Nat),
      (db.pages.map Prod.fst).Nodup →
      descendToLeaf db fuel pid key = some lp →
      db.fetchPage lp = some pg →
      btree_node_search_by_key pg.node key = some i →
      my_insert_recursive fuel db pid key rid sp =
        ⟨Status.duplicateKey, db, sp.key, sp.rid, []⟩ := by
  intro fuel
  induction fuel with
  | zero =>
    intro db pid rid sp lp pg i hn hd hf hs
    simp [descendToLeaf] at hd
  | succ f ih =>
    intro db pid rid sp lp pg i hn hd hf hs
    by_cases hleaf : (db.getPage pid).node.isLeaf = true
    · have hlp : pid = lp := by
        simp [descendToLeaf, hleaf] at hd
        exact hd
      subst hlp
      have hg : db.getPage pid = pg := by simp [DB.getPage, hf]
      have hleafpg : pg.node.isLeaf = true := hg ▸ hleaf
      have hscan : scanAux pg.node.slots key 0 pg.node.count = ScanRes.dup i :=
        searchAux_scanAux pg.node.slots key pg.node.count 0 i hs
      simp only [my_insert_recursive, hleaf, if_true]
      unfold my_insert_in_page
      rw [hg]
      by_cases hc : pg.node.count < db.maxkeys
      · simp only [hc, if_true]
        unfold my_insert_nosplit
        simp only [scanPos, hscan]
        simp only [insFlags0, Bool.false_eq_true, if_false]
        simp [DB.setPage_same db pid pg hn hf, DB.withNextBlob_self]
      · simp only [hc, if_false, hleafpg, if_true]
        unfold btree_node_search_by_key at hs
        simp [btree_node_search_by_key, hs, insFlags0]
    · rw [Bool.not_eq_true] at hleaf
      have hd' : descendToLeaf db f (btree_traverse_tree (db.getPage pid) key) key = some lp := by
        simp [descendToLeaf, hleaf] at hd
        exact hd
      have hr := ih db (btree_traverse_tree (db.getPage pid) key) rid sp lp pg i hn hd' hf hs
      simp [my_insert_recursive, hleaf, hr]

/-- C2: inserting a key that is already present in the reached leaf returns
`DUPLICATE_KEY` and leaves the tree unchanged — the returned database is the
input one, so no split happened and no slot or record was written. -/
theorem duplicate_insert_rejected_tree_unchanged (db : DB) (key : HamKey)
    (record : HamRecord) (fl : InsFlags) (fuel lp : Nat) (pg : Page) (i : Nat)
    (hnodup : (db.pages.map Prod.fst).Nodup)
    (hdesc : descendToLeaf db fuel db.rootpage key = some lp)
    (hpg : db.fetchPage lp = some pg)
    (hkey : btree_node_search_by_key pg.node key = some i)
    (hov : fl.overwrite = false) :
    btree_insert db key record fl fuel = (Status.duplicateKey, db) := by
  have h := insert_recursive_existing_dup key fuel db db.rootpage 0
    (initScratch record fl) lp pg i hnodup hdesc hpg hkey
  simp [btree_insert, btInsertRec, h]

def c2Slot : IntKey := ⟨⟨true, false, false⟩, 77, 1, 5⟩

def c2Leaf : Page := ⟨PageType.root, ⟨true, 0, 0, 0, 1, [c2Slot]⟩, false, []⟩

def c2Db : DB := ⟨[(1, c2Leaf)], 2, 1, 4, false, 100, true, false, 0, []⟩

/-- Witness for C2 at a one-leaf tree holding key 5. -/
theorem duplicate_insert_rejected_tree_unchanged_witness :
    btree_insert c2Db ⟨5, 1⟩ ⟨[9], 1⟩ insFlags0 1 = (Status.duplicateKey, c2Db) :=
  duplicate_insert_rejected_tree_unchanged c2Db ⟨5, 1⟩ ⟨[9], 1⟩ insFlags0 1 1 c2Leaf 0
    (by decide) (by decide) (by decide) (by decide) rfl

def c1Slot : IntKey := ⟨⟨true, false, false⟩, 77, 1, 5⟩

def c1Leaf : Page := ⟨PageType.root, ⟨true, 0, 0, 0, 1, [c1Slot]⟩, false, []⟩

def c1Db : DB := ⟨[(1, c1Leaf)], 2, 1, 4, false, 100, true, false, 0, []⟩

/-- C1 counterexample: on a one-leaf tree holding key 5 with record word 77,
a public insert of key 5 with a different record and OVERWRITE set returns
`DUPLICATE_KEY` — not OK — and the database (including the stored record) is
bytewise unchanged: the leaf-level call drops the caller's flags and nothing
replaces the record in place. -/
theorem insert_overwrite_counterexample :
    btree_insert c1Db ⟨5, 1⟩ ⟨[9], 1⟩ insFlagsOverwrite 1 = (Status.duplicateKey, c1Db) := by
  decide

/-- C1 amended: with OVERWRITE among the flags that actually reach
`my_insert_nosplit`, an insert of an existing key returns OK and leaves the
page — record and stored key length included — entirely untouched; through
the public `btree_insert` path the caller's flags are not forwarded to the
leaf, so the call returns `DUPLICATE_KEY` with the tree unchanged. -/
theorem insert_overwrite_amended :
    (∀ (page : Page) (key : HamKey) (rid : Nat) (record : HamRecord)
       (fl : InsFlags) (nb i : Nat),
       fl.overwrite = true →
       scanPos page.node.slots key page.node.count = ScanRes.dup i →
       my_insert_nosplit page key rid record fl nb = ⟨Status.ok, page, nb⟩)
    ∧ (∀ (db : DB) (key : HamKey) (record : HamRecord) (fl : InsFlags)
       (fuel lp : Nat) (pg : Page) (i : Nat),
       (db.pages.map Prod.fst).Nodup →
       descendToLeaf db fuel db.rootpage key = some lp →
       db.fetchPage lp = some pg →
       btree_node_search_by_key pg.node key = some i →
       fl.overwrite = true →
       btree_insert db key record fl fuel = (Status.duplicateKey, db)) := by
  constructor
  · intro page key rid record fl nb i hov hscan
    unfold my_insert_nosplit
    simp only [hscan, hov, if_true]
  · intro db key record fl fuel lp pg i hnodup hdesc hpg hkey hov
    have h := insert_recursive_existing_dup key fuel db db.rootpage 0
      (initScratch record fl) lp pg i hnodup hdesc hpg hkey
    simp [btree_insert, btInsertRec, h]

/-- Witness for the amended C1 at the same one-leaf tree. -/
theorem insert_overwrite_amended_witness :
    my_insert_nosplit c1Leaf ⟨5, 1⟩ 0 ⟨[9], 1⟩ insFlagsOverwrite 7 =
      ⟨Status.ok, c1Leaf, 7⟩ ∧
    btree_insert c1Db ⟨5, 1⟩ ⟨[9], 1⟩ insFlagsOverwrite 1 = (Status.duplicateKey, c1Db) :=
  ⟨insert_overwrite_amended.1 c1Leaf ⟨5, 1⟩ 0 ⟨[9], 1⟩ insFlagsOverwrite 7 0 rfl (by decide),
   insert_overwrite_amended.2 c1Db ⟨5, 1⟩ ⟨[9], 1⟩ insFlagsOverwrite 1 1 c1Leaf 0
     (by decide) (by decide) (by decide) (by decide) rfl⟩

lemma DB.rootpage_mapPage (db : DB) (p : Nat) (f : Page → Page) :
    (db.mapPage p f).rootpage = db.rootpage := rfl

lemma DB.dirty_mapPage (db : DB) (p : Nat) (f : Page → Page) :
    (db.mapPage p f).dirty = db.dirty := rfl

lemma DB.nextPageId_mapPage (db : DB) (p : Nat) (f : Page → Page) :
    (db.mapPage p f).nextPageId = db.nextPageId := rfl

lemma DB.nextBlobId_mapPage (db : DB) (p : Nat) (f : Page → Page) :
    (db.mapPage p f).nextBlobId = db.nextBlobId := rfl

lemma DB.fetchPage_withNextBlob (db : DB) (n q : Nat) :
    (db.withNextBlob n).fetchPage q = db.fetchPage q := rfl

lemma DB.rootpage_withNextBlob (db : DB) (n : Nat) :
    (db.withNextBlob n).rootpage = db.rootpage := rfl

lemma DB.nextPageId_withNextBlob (db : DB) (n : Nat) :
    (db.withNextBlob n).nextPageId = db.nextPageId := rfl

lemma DB.dirty_withNextBlob (db : DB) (n : Nat) :
    (db.withNextBlob n).dirty = db.dirty := rfl

lemma DB.rootpage_alloc (db : DB) (t : PageType) :
    ((db.allocPage t).1).rootpage = db.rootpage := rfl

lemma DB.nextBlobId_alloc (db : DB) (t : PageType) :
    ((db.allocPage t).1).nextBlobId = db.nextBlobId := rfl


lemma DB.fetchPage_setRootpage (db : DB) (np q : Nat) :
    (db.setRootpage np).fetchPage q = db.fetchPage q := rfl

lemma DB.fetchPage_setDbDirty (db : DB) (q : Nat) :
    (db.setDbDirty).fetchPage q = db.fetchPage q := rfl

lemma DB.rootpage_setDbDirty (db : DB) : (db.setDbDirty).rootpage = db.rootpage := rfl

lemma DB.rootpage_setRootpage (db : DB) (np : Nat) : (db.setRootpage np).rootpage = np := rfl

lemma DB.dirty_setDbDirty (db : DB) : (db.setDbDirty).dirty = true := rfl

/-- C3: when the recursion reports SPLIT at the root, `btree_insert` returns
OK; the freshly allocated root page carries `ptr_left` = the old root's page
id and exactly one slot holding the propagated pivot key with the scratchpad
rid as its routing pointer; the backend root page id now names the new root
and the database is marked dirty; and the old root page is still present in
the store — retyped to an ordinary index page, otherwise intact — so it
remains reachable via the new root's `ptr_left`. -/
theorem root_split_new_root (db : DB) (key : HamKey) (record : HamRecord)
    (fl : InsFlags) (fuel : Nat) (r : InsRes) (opg : Page)
    (hrun : btInsertRec db key record fl fuel = r)
    (hsplit : r.st = Status.split)
    (hfresh : r.db.fetchPage r.db.nextPageId = none)
    (hold : r.db.fetchPage db.rootpage = some opg) :
    (btree_insert db key record fl fuel).1 = Status.ok ∧
    (btree_insert db key record fl fuel).2.rootpage = r.db.nextPageId ∧
    (btree_insert db key record fl fuel).2.dirty = true ∧
    (btree_insert db key record fl fuel).2.fetchPage r.db.nextPageId =
      some ⟨PageType.root,
        ⟨false, db.rootpage, 0, 0, 1,
          [⟨kfNone, r.spRid, r.spKey.size, r.spKey.data⟩]⟩, true, []⟩ ∧
    (btree_insert db key record fl fuel).2.fetchPage db.rootpage =
      some { opg with ptype := PageType.index } := by
  have hne : ¬ (db.rootpage = r.db.nextPageId) := by
    intro h
    rw [h, hfresh] at hold
    exact Option.noConfusion hold
  unfold btree_insert
  rw [hrun]
  simp only [hsplit, if_pos]
  have hsnd : (r.db.allocPage PageType.root).2 = r.db.nextPageId := rfl
  rw [hsnd]
  have hf1 : ((r.db.allocPage PageType.root).1).fetchPage r.db.nextPageId =
      some ⟨PageType.root, emptyNode, false, []⟩ := by
    rw [DB.fetchPage_alloc, hfresh]
    simp
  have hf2 : (((r.db.allocPage PageType.root).1).mapPage r.db.nextPageId
      (fun p => { p with node := { p.node with ptrLeft := db.rootpage } })).fetchPage
      r.db.nextPageId =
      some ⟨PageType.root, ⟨false, db.rootpage, 0, 0, 0, []⟩, false, []⟩ := by
    rw [DB.fetchPage_mapPage, if_pos rfl, hf1]
    simp [emptyNode]
  have hget : (((r.db.allocPage PageType.root).1).mapPage r.db.nextPageId
      (fun p => { p with node := { p.node with ptrLeft := db.rootpage } })).getPage
      r.db.nextPageId = ⟨PageType.root, ⟨false, db.rootpage, 0, 0, 0, []⟩, false, []⟩ := by
    simp [DB.getPage, hf2]
  rw [hget]
  have hnb : (((r.db.allocPage PageType.root).1).mapPage r.db.nextPageId
      (fun p => { p with node := { p.node with ptrLeft := db.rootpage } })).nextBlobId =
      r.db.nextBlobId := rfl
  rw [hnb]
  have hns : my_insert_nosplit ⟨PageType.root, ⟨false, db.rootpage, 0, 0, 0, []⟩, false, []⟩
      r.spKey r.spRid record ⟨true, false⟩ r.db.nextBlobId =
      ⟨Status.ok, ⟨PageType.root,
        ⟨false, db.rootpage, 0, 0, 1, [⟨kfNone, r.spRid, r.spKey.size, r.spKey.data⟩]⟩,
        true, []⟩, r.db.nextBlobId⟩ := by
    unfold my_insert_nosplit
    simp [scanPos, scanAux, recordEncode, setSlot]
  rw [hns]
  rw [if_pos rfl]
  refine ⟨rfl, rfl, rfl, ?_, ?_⟩
  · rw [DB.fetchPage_mapPage, if_neg (fun h => hne h.symm)]
    rw [DB.fetchPage_setDbDirty, DB.fetchPage_setRootpage, DB.fetchPage_withNextBlob]
    rw [DB.fetchPage_setPage, if_pos rfl, hf2]
    rfl
  · rw [DB.fetchPage_mapPage, if_pos rfl]
    rw [DB.fetchPage_setDbDirty, DB.fetchPage_setRootpage, DB.fetchPage_withNextBlob]
    rw [DB.fetchPage_setPage, if_neg hne]
    rw [DB.fetchPage_mapPage, if_neg hne]
    rw [DB.fetchPage_alloc, hold]
    simp

def c3Slot1 : IntKey := ⟨⟨false, false, true⟩, 0, 1, 10⟩

def c3Slot2 : IntKey := ⟨⟨false, false, true⟩, 0, 1, 20⟩

def c3Leaf : Page := ⟨PageType.root, ⟨true, 0, 0, 0, 2, [c3Slot1, c3Slot2]⟩, false, []⟩

def c3Db : DB := ⟨[(1, c3Leaf)], 2, 1, 2, false, 100, true, false, 0, []⟩

def c3Run : InsRes := btInsertRec c3Db ⟨30, 1⟩ ⟨[], 0⟩ insFlags0 1

/-- Witness for C3: inserting key 30 into a full two-key root leaf splits the
root; the public insert returns OK. -/
theorem root_split_new_root_witness :
    (btree_insert c3Db ⟨30, 1⟩ ⟨[], 0⟩ insFlags0 1).1 = Status.ok :=
  (root_split_new_root c3Db ⟨30, 1⟩ ⟨[], 0⟩ insFlags0 1 c3Run (c3Run.db.getPage 1)
    rfl (by decide) (by decide) (by decide)).1

/-- Computation of the first phase of the split: the new sibling's id, the
pivot data, and the two pages as `splitDivide` leaves them. -/
lemma splitDivide_pages (db : DB) (pid : Nat) (opg : Page)
    (hpg : db.fetchPage pid = some opg)
    (hfresh : db.fetchPage db.nextPageId = none) :
    (splitDivide db pid).newPid = db.nextPageId ∧
    (splitDivide db pid).pivot = opg.node.count / 2 ∧
    (splitDivide db pid).pivotKey = ⟨(getSlotD opg.node.slots (opg.node.count / 2)).kdata,
       (getSlotD opg.node.slots (opg.node.count / 2)).size⟩ ∧
    (splitDivide db pid).pivotRid = db.nextPageId ∧
    (splitDivide db pid).db.fetchPage pid =
      some { opg with node := { opg.node with count := opg.node.count / 2 } } ∧
    (splitDivide db pid).db.fetchPage db.nextPageId =
      some ⟨PageType.index,
        ⟨false,
         (if opg.node.isLeaf then 0 else (getSlotD opg.node.slots (opg.node.count / 2)).ptr),
         0, 0,
         (if opg.node.isLeaf then opg.node.count - opg.node.count / 2
          else opg.node.count - opg.node.count / 2 - 1),
         (if opg.node.isLeaf
          then (opg.node.slots.drop (opg.node.count / 2)).take
            (opg.node.count - opg.node.count / 2)
          else (opg.node.slots.drop (opg.node.count / 2 + 1)).take
            (opg.node.count - opg.node.count / 2 - 1))⟩,
        false, []⟩ := by
  have hne : ¬ (pid = db.nextPageId) := by
    intro h
    rw [h, hfresh] at hpg
    exact Option.noConfusion hpg
  have hne2 : ¬ (db.nextPageId = pid) := fun h => hne h.symm
  have hsnd : (db.allocPage PageType.index).2 = db.nextPageId := rfl
  by_cases hL : opg.node.isLeaf
  · simp [splitDivide, hL, hsnd, DB.getPage, DB.fetchPage_mapPage, DB.fetchPage_alloc, hpg,
      hfresh, hne, hne2, emptyNode]
  · rw [Bool.not_eq_true] at hL
    simp [splitDivide, hL, hsnd, DB.getPage, DB.fetchPage_mapPage, DB.fetchPage_alloc, hpg,
      hfresh, hne, hne2, emptyNode]

/-- `my_insert_nosplit` only ever reports OK or `DUPLICATE_KEY`. -/
lemma nosplit_st_cases (page : Page) (key : HamKey) (rid : Nat)
    (record : HamRecord) (flags : InsFlags) (nb : Nat) :
    (my_insert_nosplit page key rid record flags nb).st = Status.ok ∨
    (my_insert_nosplit page key rid record flags nb).st = Status.duplicateKey := by
  unfold my_insert_nosplit
  cases hs : scanPos page.node.slots key page.node.count with
  | dup i => by_cases ho : flags.overwrite <;> simp [hs, ho]
  | ins i => simp [hs]

/-- When `my_insert_split` succeeds, the scratchpad receives the pivot key
and the new sibling's page id computed by the divide phase. -/
lemma insert_split_scratchpad (db : DB) (pid : Nat) (key : HamKey) (rid : Nat)
    (fl : InsFlags) (sp : Scratch)
    (hst : (my_insert_split db pid key rid fl sp).st = Status.split) :
    (my_insert_split db pid key rid fl sp).spKey = (splitDivide db pid).pivotKey ∧
    (my_insert_split db pid key rid fl sp).spRid = (splitDivide db pid).pivotRid := by
  simp only [my_insert_split] at hst ⊢
  by_cases hok : (my_insert_nosplit ((splitDivide db pid).db.getPage
      (if keyCompareIntToPub ((splitDivide db pid).db.getPage pid).node.slots
          (splitDivide db pid).pivot key = Ordering.gt then pid
       else (splitDivide db pid).newPid)) key rid sp.record
      { noflush := true, overwrite := fl.overwrite } (splitDivide db pid).db.nextBlobId).st =
      Status.ok
  · rw [if_pos hok] at hst ⊢
    exact ⟨rfl, rfl⟩
  · rw [if_neg hok] at hst
    exfalso
    rcases nosplit_st_cases ((splitDivide db pid).db.getPage
        (if keyCompareIntToPub ((splitDivide db pid).db.getPage pid).node.slots
            (splitDivide db pid).pivot key = Ordering.gt then pid
         else (splitDivide db pid).newPid)) key rid sp.record
        { noflush := true, overwrite := fl.overwrite }
        (splitDivide db pid).db.nextBlobId with h | h
    · exact hok h
    · rw [h] at hst
      exact Status.noConfusion hst

/-- C5: `insert_split` divides a node of count N at pivot = N/2. For a leaf
the new right sibling's live slots are exactly `[pivot, N)` of the old live
region, the old node keeps `[0, pivot)`, and the pivot slot is copied — it
is still slot 0 of the new sibling — while its key is propagated upward
with the new sibling's page id as the routing pointer. For an internal node
the sibling receives `[pivot+1, N)`, the old node keeps `[0, pivot)`, and
the slot at `pivot` is consumed: its key becomes the propagated pivot and
its pointer becomes the new sibling's `left_ptr`. -/
theorem insert_split_division (db : DB) (pid : Nat) (key : HamKey) (rid : Nat)
    (fl : InsFlags) (sp : Scratch) (opg : Page)
    (hpg : db.fetchPage pid = some opg)
    (hfresh : db.fetchPage db.nextPageId = none)
    (hlen : opg.node.count ≤ opg.node.slots.length)
    (hpos : 0 < opg.node.count) :
    (splitDivide db pid).pivot = opg.node.count / 2 ∧
    (splitDivide db pid).pivotRid = (splitDivide db pid).newPid ∧
    (splitDivide db pid).pivotKey =
      ⟨(getSlotD opg.node.slots (opg.node.count / 2)).kdata,
       (getSlotD opg.node.slots (opg.node.count / 2)).size⟩ ∧
    (opg.node.isLeaf = true →
      liveSlots (((splitDivide db pid).db.getPage (splitDivide db pid).newPid).node) =
        (liveSlots opg.node).drop (opg.node.count / 2) ∧
      liveSlots (((splitDivide db pid).db.getPage pid).node) =
        (liveSlots opg.node).take (opg.node.count / 2) ∧
      getSlotD (((splitDivide db pid).db.getPage (splitDivide db pid).newPid).node).slots 0 =
        getSlotD opg.node.slots (opg.node.count / 2)) ∧
    (opg.node.isLeaf = false →
      liveSlots (((splitDivide db pid).db.getPage (splitDivide db pid).newPid).node) =
        (liveSlots opg.node).drop (opg.node.count / 2 + 1) ∧
      liveSlots (((splitDivide db pid).db.getPage pid).node) =
        (liveSlots opg.node).take (opg.node.count / 2) ∧
      ((splitDivide db pid).db.getPage (splitDivide db pid).newPid).node.ptrLeft =
        (getSlotD opg.node.slots (opg.node.count / 2)).ptr) ∧
    ((my_insert_split db pid key rid fl sp).st = Status.split →
      (my_insert_split db pid key rid fl sp).spKey = (splitDivide db pid).pivotKey ∧
      (my_insert_split db pid key rid fl sp).spRid = (splitDivide db pid).pivotRid) := by
  obtain ⟨h1, h2, h3, h4, h5, h6⟩ := splitDivide_pages db pid opg hpg hfresh
  refine ⟨h2, ?_, ?_, ?_, ?_, insert_split_scratchpad db pid key rid fl sp⟩
  · rw [h4, h1]
  · rw [h3]
  · intro hL
    have hgNew : ((splitDivide db pid).db.getPage (splitDivide db pid).newPid) =
        ⟨PageType.index,
          ⟨false, 0, 0, 0, opg.node.count - opg.node.count / 2,
           (opg.node.slots.drop (opg.node.count / 2)).take
             (opg.node.count - opg.node.count / 2)⟩, false, []⟩ := by
      rw [DB.getPage, h1, h6]
      simp [hL]
    have hgOld : ((splitDivide db pid).db.getPage pid) =
        { opg with node := { opg.node with count := opg.node.count / 2 } } := by
      rw [DB.getPage, h5]
      rfl
    have hpivlt : opg.node.count / 2 < opg.node.count := Nat.div_lt_self hpos (by omega)
    refine ⟨?_, ?_, ?_⟩
    · rw [hgNew, liveSlots_eq, liveSlots_eq _ hlen]
      · simp only []
        rw [List.take_take, Nat.min_self, List.drop_take]
      · simp only [List.length_take, List.length_drop]
        omega
    · rw [hgOld, liveSlots_eq, liveSlots_eq _ hlen]
      · simp only []
        rw [List.take_take]
        congr 1
        omega
      · simp only []
        omega
    · rw [hgNew]
      simp only [getSlotD, List.getD]
      rw [List.get?_take (by omega), List.get?_drop]
      norm_num
  · intro hL
    have hgNew : ((splitDivide db pid).db.getPage (splitDivide db pid).newPid) =
        ⟨PageType.index,
          ⟨false, (getSlotD opg.node.slots (opg.node.count / 2)).ptr, 0, 0,
           opg.node.count - opg.node.count / 2 - 1,
           (opg.node.slots.drop (opg.node.count / 2 + 1)).take
             (opg.node.count - opg.node.count / 2 - 1)⟩, false, []⟩ := by
      rw [DB.getPage, h1, h6]
      simp [hL]
    have hgOld : ((splitDivide db pid).db.getPage pid) =
        { opg with node := { opg.node with count := opg.node.count / 2 } } := by
      rw [DB.getPage, h5]
      rfl
    refine ⟨?_, ?_, ?_⟩
    · rw [hgNew, liveSlots_eq, liveSlots_eq _ hlen]
      · simp only []
        rw [List.take_take, Nat.min_self, List.drop_take]
        congr 1
      · simp only [List.length_take, List.length_drop]
        omega
    · rw [hgOld, liveSlots_eq, liveSlots_eq _ hlen]
      · simp only []
        rw [List.take_take]
        congr 1
        omega
      · simp only []
        omega
    · rw [hgNew]

def c5Slots : List IntKey :=
  [⟨kfNone, 0, 1, 10⟩, ⟨kfNone, 0, 1, 20⟩, ⟨kfNone, 0, 1, 30⟩, ⟨kfNone, 0, 1, 40⟩]

def c5Leaf : Page := ⟨PageType.root, ⟨true, 0, 0, 0, 4, c5Slots⟩, false, []⟩

def c5Db : DB := ⟨[(1, c5Leaf)], 2, 1, 4, false, 100, true, false, 0, []⟩

/-- Witness for C5 at a four-key leaf: the divide phase splits at pivot 2. -/
theorem insert_split_division_witness :
    (splitDivide c5Db 1).pivot = 2 :=
  (insert_split_division c5Db 1 ⟨50, 1⟩ 0 insFlags0 (initScratch ⟨[], 0⟩ insFlags0) c5Leaf
    (by decide) (by decide) (by decide) (by decide)).1

/-- The routing decision of `my_insert_split` (btree_insert.c, 487-499): the
page that receives the new element — the old page exactly when the pivot key
compares greater than the inserted key (`cmp > 0`), the new right sibling
otherwise (`cmp <= 0`). -/
def splitTarget (db : DB) (pid : Nat) (key : HamKey) : Nat :=
  if keyCompareIntToPub (((splitDivide db pid).db.getPage pid).node.slots)
      (splitDivide db pid).pivot key = Ordering.gt then pid
  else (splitDivide db pid).newPid

lemma getPage_mapPage_preserve (db : DB) (p q : Nat) (f : Page → Page)
    (hs : ∀ pg, (f pg).node.slots = pg.node.slots)
    (hc : ∀ pg, (f pg).node.count = pg.node.count) :
    ((db.mapPage p f).getPage q).node.slots = (db.getPage q).node.slots ∧
    ((db.mapPage p f).getPage q).node.count = (db.getPage q).node.count := by
  rw [DB.getPage, DB.getPage, DB.fetchPage_mapPage]
  by_cases h : q = p
  · simp only [h, if_pos]
    cases db.fetchPage p <;> simp [hs, hc]
  · simp [h]

lemma nodeHasLiveKey_congr (n m : BtreeNode) (key : HamKey)
    (hs : m.slots = n.slots) (hc : m.count = n.count) :
    nodeHasLiveKey m key = nodeHasLiveKey n key := by
  simp [nodeHasLiveKey, hs, hc]

lemma getPage_setPage_self (db : DB) (p : Nat) (pg : Page)
    (h : (db.fetchPage p).isSome) : (db.setPage p pg).getPage p = pg := by
  rw [DB.getPage, DB.fetchPage_setPage, if_pos rfl]
  cases hx : db.fetchPage p with
  | none => rw [hx] at h; exact absurd h (by simp)
  | some q => simp

lemma nosplit_preserves_right (page : Page) (key : HamKey) (rid : Nat)
    (record : HamRecord) (flags : InsFlags) (nb : Nat) :
    (my_insert_nosplit page key rid record flags nb).page.node.right = page.node.right := by
  unfold my_insert_nosplit
  cases hs : scanPos page.node.slots key page.node.count with
  | dup i => by_cases ho : flags.overwrite <;> simp [hs, ho]
  | ins i => simp [hs]

lemma DB.getPage_withNextBlob (db : DB) (n q : Nat) :
    (db.withNextBlob n).getPage q = db.getPage q := rfl

lemma nodeHasLiveKey_mapPage (db : DB) (p q : Nat) (f : Page → Page) (key : HamKey)
    (hs : ∀ pg, (f pg).node.slots = pg.node.slots)
    (hc : ∀ pg, (f pg).node.count = pg.node.count) :
    nodeHasLiveKey (((db.mapPage p f).getPage q).node) key =
      nodeHasLiveKey ((db.getPage q).node) key := by
  obtain ⟨h1, h2⟩ := getPage_mapPage_preserve db p q f hs hc
  exact nodeHasLiveKey_congr _ _ key h1 h2

lemma nodeHasLiveKey_mapLeft (db : DB) (p q v : Nat) (key : HamKey) :
    nodeHasLiveKey (((db.mapPage p
        (fun pg => { pg with node := { pg.node with left := v } })).getPage q).node) key =
      nodeHasLiveKey ((db.getPage q).node) key :=
  nodeHasLiveKey_mapPage db p q _ key (fun _ => rfl) (fun _ => rfl)

lemma nodeHasLiveKey_mapRight (db : DB) (p q v : Nat) (key : HamKey) :
    nodeHasLiveKey (((db.mapPage p
        (fun pg => { pg with node := { pg.node with right := v } })).getPage q).node) key =
      nodeHasLiveKey ((db.getPage q).node) key :=
  nodeHasLiveKey_mapPage db p q _ key (fun _ => rfl) (fun _ => rfl)

lemma nodeHasLiveKey_mapDirty (db : DB) (p q : Nat) (key : HamKey) :
    nodeHasLiveKey (((db.mapPage p
        (fun pg => { pg with dirty := true })).getPage q).node) key =
      nodeHasLiveKey ((db.getPage q).node) key :=
  nodeHasLiveKey_mapPage db p q _ key (fun _ => rfl) (fun _ => rfl)

/-- C4 (amended): after the divide, the inserted key is compared against the
pivot slot of the old page; the new element goes to the new right sibling
exactly when the pivot key does not exceed the inserted key (inserted >=
pivot), and to the old left node when the inserted key is below the pivot —
the opposite orientation of the claim — and either way through
`my_insert_nosplit` with the NOFLUSH hint, as the head of the split's event
trace records. -/
theorem insert_split_routes_to_target (db : DB) (pid : Nat) (key : HamKey) (rid : Nat)
    (fl : InsFlags) (sp : Scratch) (opg : Page)
    (hpg : db.fetchPage pid = some opg)
    (hfresh : db.fetchPage db.nextPageId = none)
    (hst : (my_insert_split db pid key rid fl sp).st = Status.split) :
    ((getSlotD opg.node.slots (opg.node.count / 2)).kdata <= key.data →
       splitTarget db pid key = (splitDivide db pid).newPid) ∧
    (key.data < (getSlotD opg.node.slots (opg.node.count / 2)).kdata →
       splitTarget db pid key = pid) ∧
    (my_insert_split db pid key rid fl sp).trace.head? =
      some (ChainEvent.insertNosplit (splitTarget db pid key) true) ∧
    nodeHasLiveKey
      (((my_insert_split db pid key rid fl sp).db.getPage (splitTarget db pid key)).node)
      key = true := by
  obtain ⟨h1, h2, h3, h4, h5, h6⟩ := splitDivide_pages db pid opg hpg hfresh
  have hslots : (((splitDivide db pid).db.getPage pid).node.slots) = opg.node.slots := by
    rw [DB.getPage, h5]
    rfl
  have hcmp : keyCompareIntToPub (((splitDivide db pid).db.getPage pid).node.slots)
      (splitDivide db pid).pivot key =
      compare (getSlotD opg.node.slots (opg.node.count / 2)).kdata key.data := by
    rw [keyCompareIntToPub, hslots, h2]
  refine ⟨?_, ?_, ?_⟩
  · intro hle
    rw [splitTarget, hcmp, if_neg]
    simp only [Nat.compare_eq_gt]
    omega
  · intro hlt
    rw [splitTarget, hcmp, if_pos]
    simp only [Nat.compare_eq_gt]
    omega
  · have htgt : (if keyCompareIntToPub (((splitDivide db pid).db.getPage pid).node.slots)
        (splitDivide db pid).pivot key = Ordering.gt then pid
        else (splitDivide db pid).newPid) = splitTarget db pid key := rfl
    have hsome : ((splitDivide db pid).db.fetchPage (splitTarget db pid key)).isSome := by
      rw [splitTarget]
      split
      · rw [h5]; simp
      · rw [h1, h6]; simp
    simp only [my_insert_split] at hst ⊢
    rw [htgt] at hst ⊢
    by_cases hok : (my_insert_nosplit
        ((splitDivide db pid).db.getPage (splitTarget db pid key)) key rid sp.record
        { noflush := true, overwrite := fl.overwrite }
        (splitDivide db pid).db.nextBlobId).st = Status.ok
    · rw [if_pos hok] at hst ⊢
      constructor
      · simp
      · simp only [nodeHasLiveKey_mapLeft, nodeHasLiveKey_mapRight, nodeHasLiveKey_mapDirty]
        split
        · simp only [nodeHasLiveKey_mapLeft, nodeHasLiveKey_mapRight, nodeHasLiveKey_mapDirty]
          rw [show ∀ (dbx : DB) (n q : Nat), ((dbx.withNextBlob n).getPage q) = dbx.getPage q
            from fun _ _ _ => rfl]
          rw [getPage_setPage_self _ _ _ hsome]
          exact nosplit_ok_has_key _ _ _ _ _ _ hok
        · simp only [nodeHasLiveKey_mapLeft, nodeHasLiveKey_mapRight, nodeHasLiveKey_mapDirty]
          rw [show ∀ (dbx : DB) (n q : Nat), ((dbx.withNextBlob n).getPage q) = dbx.getPage q
            from fun _ _ _ => rfl]
          rw [getPage_setPage_self _ _ _ hsome]
          exact nosplit_ok_has_key _ _ _ _ _ _ hok
    · rw [if_neg hok] at hst
      exfalso
      rcases nosplit_st_cases ((splitDivide db pid).db.getPage (splitTarget db pid key))
          key rid sp.record { noflush := true, overwrite := fl.overwrite }
          (splitDivide db pid).db.nextBlobId with h | h
      · exact hok h
      · rw [h] at hst
        exact Status.noConfusion hst

lemma splitDivide_fetch_other (db : DB) (pid q : Nat)
    (hq1 : ¬ (q = pid)) (hq2 : ¬ (q = db.nextPageId)) :
    (splitDivide db pid).db.fetchPage q = db.fetchPage q := by
  have hsnd : (db.allocPage PageType.index).2 = db.nextPageId := rfl
  simp only [splitDivide, hsnd, DB.fetchPage_mapPage, hq1, hq2, if_false]
  by_cases hL : ((db.allocPage PageType.index).1.getPage pid).node.isLeaf
  · simp only [hL, if_true, DB.fetchPage_mapPage, hq1, hq2, if_false]
    rw [DB.fetchPage_alloc]
    cases db.fetchPage q <;> simp [hq2]
  · rw [Bool.not_eq_true] at hL
    simp only [hL, Bool.false_eq_true, if_false, DB.fetchPage_mapPage, hq1, hq2]
    rw [DB.fetchPage_alloc]
    cases db.fetchPage q <;> simp [hq2]

/-- C9 (amended): the sibling-chain splice of a successful split performs its
writes in the fixed order new.left = old, new.right = old.right,
old.right = new, and then — when the old right sibling exists —
old.right.left = new, marking the sibling, the new page and the old page
dirty, in that order. The claim's order (old.right.left before old.right)
does not match the code. -/
theorem insert_split_chain_order (db : DB) (pid : Nat) (key : HamKey) (rid : Nat)
    (fl : InsFlags) (sp : Scratch) (opg spg : Page)
    (hpg : db.fetchPage pid = some opg)
    (hfresh : db.fetchPage db.nextPageId = none)
    (hsib0 : opg.node.right ≠ 0)
    (hsibne1 : ¬ (opg.node.right = pid))
    (hsibne2 : ¬ (opg.node.right = db.nextPageId))
    (hsibpg : db.fetchPage opg.node.right = some spg)
    (hst : (my_insert_split db pid key rid fl sp).st = Status.split) :
    (my_insert_split db pid key rid fl sp).trace =
      [ChainEvent.insertNosplit (splitTarget db pid key) true,
       ChainEvent.setLeft db.nextPageId pid,
       ChainEvent.setRight db.nextPageId opg.node.right,
       ChainEvent.setRight pid db.nextPageId,
       ChainEvent.setLeft opg.node.right db.nextPageId,
       ChainEvent.markDirty opg.node.right,
       ChainEvent.markDirty db.nextPageId,
       ChainEvent.markDirty pid] := by
  obtain ⟨h1, h2, h3, h4, h5, h6⟩ := splitDivide_pages db pid opg hpg hfresh
  have htgt : (if keyCompareIntToPub (((splitDivide db pid).db.getPage pid).node.slots)
      (splitDivide db pid).pivot key = Ordering.gt then pid
      else (splitDivide db pid).newPid) = splitTarget db pid key := rfl
  have htgtcases : splitTarget db pid key = pid ∨ splitTarget db pid key = db.nextPageId := by
    rw [splitTarget]
    split
    · exact Or.inl rfl
    · exact Or.inr h1
  have hsibtgt : ¬ (opg.node.right = splitTarget db pid key) := by
    rcases htgtcases with h | h <;> rw [h] <;> assumption
  simp only [my_insert_split] at hst ⊢
  rw [htgt] at hst ⊢
  by_cases hok : (my_insert_nosplit
      ((splitDivide db pid).db.getPage (splitTarget db pid key)) key rid sp.record
      { noflush := true, overwrite := fl.overwrite }
      (splitDivide db pid).db.nextBlobId).st = Status.ok
  · rw [if_pos hok] at hst ⊢
    have hrt : (((((splitDivide db pid).db.setPage (splitTarget db pid key)
        (my_insert_nosplit ((splitDivide db pid).db.getPage (splitTarget db pid key))
          key rid sp.record { noflush := true, overwrite := fl.overwrite }
          (splitDivide db pid).db.nextBlobId).page).withNextBlob
        (my_insert_nosplit ((splitDivide db pid).db.getPage (splitTarget db pid key))
          key rid sp.record { noflush := true, overwrite := fl.overwrite }
          (splitDivide db pid).db.nextBlobId).nextBlobId).getPage pid).node.right) =
        opg.node.right := by
      rw [show ∀ (dbx : DB) (n q : Nat), ((dbx.withNextBlob n).getPage q) = dbx.getPage q
        from fun _ _ _ => rfl]
      rw [DB.getPage, DB.fetchPage_setPage]
      by_cases h : pid = splitTarget db pid key
      · rw [if_pos h, h5]
        simp only [Option.map_some', Option.getD_some]
        rw [nosplit_preserves_right]
        rw [← h, DB.getPage, h5]
        rfl
      · rw [if_neg h, h5]
        rfl
    rw [hrt]
    rw [if_pos hsib0]
    have hfs : (((splitDivide db pid).db.setPage (splitTarget db pid key)
        (my_insert_nosplit ((splitDivide db pid).db.getPage (splitTarget db pid key))
          key rid sp.record { noflush := true, overwrite := fl.overwrite }
          (splitDivide db pid).db.nextBlobId).page).withNextBlob
        (my_insert_nosplit ((splitDivide db pid).db.getPage (splitTarget db pid key))
          key rid sp.record { noflush := true, overwrite := fl.overwrite }
          (splitDivide db pid).db.nextBlobId).nextBlobId).fetchPage opg.node.right =
        some spg := by
      rw [DB.fetchPage_withNextBlob, DB.fetchPage_setPage, if_neg hsibtgt]
      rw [splitDivide_fetch_other db pid _ hsibne1 hsibne2]
      exact hsibpg
    rw [hfs]
    simp [h1]
  · rw [if_neg hok] at hst
    exfalso
    rcases nosplit_st_cases ((splitDivide db pid).db.getPage (splitTarget db pid key))
        key rid sp.record { noflush := true, overwrite := fl.overwrite }
        (splitDivide db pid).db.nextBlobId with h | h
    · exact hok h
    · rw [h] at hst
      exact Status.noConfusion hst

def c4Slots : List IntKey :=
  [⟨kfNone, 0, 1, 10⟩, ⟨kfNone, 0, 1, 20⟩, ⟨kfNone, 0, 1, 30⟩, ⟨kfNone, 0, 1, 40⟩]

def c4Leaf : Page := ⟨PageType.root, ⟨true, 0, 0, 0, 4, c4Slots⟩, false, []⟩

def c4Db : DB := ⟨[(1, c4Leaf)], 2, 1, 4, false, 100, true, false, 0, []⟩

def c4Run : InsRes := my_insert_split c4Db 1 ⟨5, 1⟩ 0 insFlags0 (initScratch ⟨[], 0⟩ insFlags0)

/-- C4 counterexample: splitting the full leaf [10,20,30,40] divides at the
pivot slot whose key is 30; inserting key 5, which is ≤ the pivot key, does
NOT go to the new right sibling (page 2) — it is inserted into the old left
node (page 1), refuting the claim's direction of the comparison. -/
theorem insert_split_routes_counterexample :
    (getSlotD (c4Db.getPage 1).node.slots 2).kdata = 30 ∧
    c4Run.st = Status.split ∧
    nodeHasLiveKey ((c4Run.db.getPage 2).node) ⟨5, 1⟩ = false ∧
    nodeHasLiveKey ((c4Run.db.getPage 1).node) ⟨5, 1⟩ = true := by
  decide

/-- Witness for the amended C4 at the same split: key 5 is routed to the old
page (page 1) and lands among its live slots. -/
theorem insert_split_routes_to_target_witness :
    splitTarget c4Db 1 ⟨5, 1⟩ = 1 ∧
    nodeHasLiveKey ((c4Run.db.getPage (splitTarget c4Db 1 ⟨5, 1⟩)).node) ⟨5, 1⟩ = true :=
  ⟨(insert_split_routes_to_target c4Db 1 ⟨5, 1⟩ 0 insFlags0
      (initScratch ⟨[], 0⟩ insFlags0) c4Leaf (by decide) (by decide) (by decide)).2.1
      (by decide),
   (insert_split_routes_to_target c4Db 1 ⟨5, 1⟩ 0 insFlags0
      (initScratch ⟨[], 0⟩ insFlags0) c4Leaf (by decide) (by decide) (by decide)).2.2.2⟩

def c9Slots : List IntKey :=
  [⟨kfNone, 0, 1, 10⟩, ⟨kfNone, 0, 1, 20⟩, ⟨kfNone, 0, 1, 30⟩, ⟨kfNone, 0, 1, 40⟩]

def c9Leaf : Page := ⟨PageType.root, ⟨true, 0, 0, 2, 4, c9Slots⟩, false, []⟩

def c9Sib : Page := ⟨PageType.leaf, ⟨true, 0, 1, 0, 0, []⟩, false, []⟩

def c9Db : DB := ⟨[(1, c9Leaf), (2, c9Sib)], 3, 1, 4, false, 100, true, false, 0, []⟩

def c9Run : InsRes := my_insert_split c9Db 1 ⟨50, 1⟩ 0 insFlags0 (initScratch ⟨[], 0⟩ insFlags0)

/-- C9 counterexample: splitting the leaf (page 1) that has a right sibling
(page 2) allocates page 3 and performs the splice as `old.right = new`
(setRight 1 3) BEFORE `old.right.left = new` (setLeft 2 3): the trace is not
in the claimed fixed order new.left, new.right, old.right.left, old.right. -/
theorem insert_split_chain_order_counterexample :
    c9Run.trace =
      [ChainEvent.insertNosplit 3 true, ChainEvent.setLeft 3 1, ChainEvent.setRight 3 2,
       ChainEvent.setRight 1 3, ChainEvent.setLeft 2 3, ChainEvent.markDirty 2,
       ChainEvent.markDirty 3, ChainEvent.markDirty 1] ∧
    c9Run.trace ≠
      [ChainEvent.insertNosplit 3 true, ChainEvent.setLeft 3 1, ChainEvent.setRight 3 2,
       ChainEvent.setLeft 2 3, ChainEvent.setRight 1 3, ChainEvent.markDirty 2,
       ChainEvent.markDirty 3, ChainEvent.markDirty 1] := by
  decide

/-- Witness for the amended C9 at the same split. -/
theorem insert_split_chain_order_witness :
    c9Run.trace =
      [ChainEvent.insertNosplit (splitTarget c9Db 1 ⟨50, 1⟩) true,
       ChainEvent.setLeft c9Db.nextPageId 1,
       ChainEvent.setRight c9Db.nextPageId c9Leaf.node.right,
       ChainEvent.setRight 1 c9Db.nextPageId,
       ChainEvent.setLeft c9Leaf.node.right c9Db.nextPageId,
       ChainEvent.markDirty c9Leaf.node.right,
       ChainEvent.markDirty c9Db.nextPageId,
       ChainEvent.markDirty 1] :=
  insert_split_chain_order c9Db 1 ⟨50, 1⟩ 0 insFlags0 (initScratch ⟨[], 0⟩ insFlags0)
    c9Leaf c9Sib (by decide) (by decide) (by decide) (by decide) (by decide)
    (by decide) (by decide)

lemma setToNil_isNil (db : DB) (c : BtCursor)
    (h : ¬ (c.coupled = true ∧ c.uncoupled = true)) :
    btCursorIsNil (bt_cursor_set_to_nil db c).2.1 = true := by
  unfold bt_cursor_set_to_nil
  by_cases hu : c.uncoupled
  · have hc : c.coupled = false := by
      cases hcc : c.coupled
      · rfl
      · exact absurd ⟨hcc, hu⟩ h
    simp [hu, btCursorIsNil, hc]
  · rw [Bool.not_eq_true] at hu
    by_cases hc : c.coupled
    · simp [hu, hc, btCursorIsNil]
    · rw [Bool.not_eq_true] at hc
      simp [hu, hc, btCursorIsNil]

lemma setToNil_rootpage (db : DB) (c : BtCursor) :
    ((bt_cursor_set_to_nil db c).2.2).rootpage = db.rootpage := by
  unfold bt_cursor_set_to_nil
  by_cases hu : c.uncoupled
  · simp [hu]
  · by_cases hc : c.coupled <;> simp [hu, hc, DB.mapPage]

lemma setToNil_fetch_node (db : DB) (c : BtCursor) (q : Nat) :
    (((bt_cursor_set_to_nil db c).2.2).fetchPage q).map Page.node =
      (db.fetchPage q).map Page.node := by
  unfold bt_cursor_set_to_nil
  by_cases hu : c.uncoupled
  · simp [hu]
  · by_cases hc : c.coupled
    · simp only [hu, hc, Bool.false_eq_true, if_false, if_true]
      rw [DB.fetchPage_mapPage]
      by_cases hq : q = c.coupledPage
      · rw [if_pos hq]
        cases db.fetchPage q <;> simp [pageRemoveCursor]
      · rw [if_neg hq]
    · simp [hu, hc]

/-- `my_move_first` on a tree with no root page or an empty root node:
`KEY_NOT_FOUND` with the cursor left NIL. -/
lemma my_move_first_empty (db : DB) (c : BtCursor) (f : Nat)
    (hvalid : ¬ (c.coupled = true ∧ c.uncoupled = true))
    (hempty : db.rootpage = 0 ∨
      ∃ pg, db.fetchPage db.rootpage = some pg ∧ pg.node.count = 0) :
    (my_move_first db c (f + 1)).1 = Status.keyNotFound ∧
    btCursorIsNil (my_move_first db c (f + 1)).2.1 = true := by
  have hnil := setToNil_isNil db c hvalid
  have hroot := setToNil_rootpage db c
  simp only [my_move_first]
  rcases hempty with h0 | ⟨pg, hpg, hcount⟩
  · rw [hroot, h0]
    simp [hnil]
  · have hfetch : ((bt_cursor_set_to_nil db c).2.2).fetchPage db.rootpage =
        some ((bt_cursor_set_to_nil db c).2.2.getPage db.rootpage) := by
      have := setToNil_fetch_node db c db.rootpage
      rw [hpg] at this
      cases hx : (bt_cursor_set_to_nil db c).2.2.fetchPage db.rootpage with
      | none => rw [hx] at this; simp at this
      | some p => simp [DB.getPage, hx]
    have hcount2 : ((bt_cursor_set_to_nil db c).2.2.getPage db.rootpage).node.count = 0 := by
      have := setToNil_fetch_node db c db.rootpage
      rw [hpg, hfetch] at this
      simp at this
      rw [this, hcount]
    by_cases hz : db.rootpage = 0
    · rw [hroot, hz]
      simp [hnil]
    · rw [hroot, if_neg hz, hfetch]
      rw [show moveFirstLoop (bt_cursor_set_to_nil db c).2.2 (f + 1) db.rootpage =
          (Status.keyNotFound, db.rootpage) from by
        unfold moveFirstLoop
        rw [hfetch]
        simp [hcount2]]
      simp [hnil]

/-- `my_move_last`, same empty-tree outcome. -/
lemma my_move_last_empty (db : DB) (c : BtCursor) (f : Nat)
    (hvalid : ¬ (c.coupled = true ∧ c.uncoupled = true))
    (hempty : db.rootpage = 0 ∨
      ∃ pg, db.fetchPage db.rootpage = some pg ∧ pg.node.count = 0) :
    (my_move_last db c (f + 1)).1 = Status.keyNotFound ∧
    btCursorIsNil (my_move_last db c (f + 1)).2.1 = true := by
  have hnil := setToNil_isNil db c hvalid
  have hroot := setToNil_rootpage db c
  simp only [my_move_last]
  rcases hempty with h0 | ⟨pg, hpg, hcount⟩
  · rw [hroot, h0]
    simp [hnil]
  · have hfetch : ((bt_cursor_set_to_nil db c).2.2).fetchPage db.rootpage =
        some ((bt_cursor_set_to_nil db c).2.2.getPage db.rootpage) := by
      have := setToNil_fetch_node db c db.rootpage
      rw [hpg] at this
      cases hx : (bt_cursor_set_to_nil db c).2.2.fetchPage db.rootpage with
      | none => rw [hx] at this; simp at this
      | some p => simp [DB.getPage, hx]
    have hcount2 : ((bt_cursor_set_to_nil db c).2.2.getPage db.rootpage).node.count = 0 := by
      have := setToNil_fetch_node db c db.rootpage
      rw [hpg, hfetch] at this
      simp at this
      rw [this, hcount]
    by_cases hz : db.rootpage = 0
    · rw [hroot, hz]
      simp [hnil]
    · rw [hroot, if_neg hz, hfetch]
      rw [show moveLastLoop (bt_cursor_set_to_nil db c).2.2 (f + 1) db.rootpage =
          (Status.keyNotFound, db.rootpage) from by
        unfold moveLastLoop
        rw [hfetch]
        simp [hcount2]]
      simp [hnil]

/-- C10: on a database whose tree has no root page, or whose root node holds
zero entries, a cursor move with direction FIRST and one with direction LAST
each return `KEY_NOT_FOUND` and leave the cursor NIL. -/
theorem move_first_last_empty_tree (db : DB) (c : BtCursor) (wantKey wantRec : Bool)
    (fuel : Nat)
    (hbe : db.hasBackend = true)
    (hfuel : 1 ≤ fuel)
    (hvalid : ¬ (c.coupled = true ∧ c.uncoupled = true))
    (hempty : db.rootpage = 0 ∨
      ∃ pg, db.fetchPage db.rootpage = some pg ∧ pg.node.count = 0) :
    (bt_cursor_move db c wantKey wantRec mfFirst fuel).st = Status.keyNotFound ∧
    btCursorIsNil (bt_cursor_move db c wantKey wantRec mfFirst fuel).c = true ∧
    (bt_cursor_move db c wantKey wantRec mfLast fuel).st = Status.keyNotFound ∧
    btCursorIsNil (bt_cursor_move db c wantKey wantRec mfLast fuel).c = true := by
  obtain ⟨f, rfl⟩ : ∃ f, fuel = f + 1 := ⟨fuel - 1, by omega⟩
  have hemptyT : ∀ dbx : DB, dbx.rootpage = db.rootpage →
      (∀ q, dbx.fetchPage q = db.fetchPage q) →
      dbx.rootpage = 0 ∨ ∃ pg, dbx.fetchPage dbx.rootpage = some pg ∧ pg.node.count = 0 := by
    intro dbx h1 h2
    rw [h1, h2]
    exact hempty
  have hb : (txnBegin db).rootpage = db.rootpage := rfl
  have hb2 : ∀ q, (txnBegin db).fetchPage q = db.fetchPage q := fun _ => rfl
  simp only [bt_cursor_move, hbe, Bool.not_true, Bool.false_eq_true, if_false, mfFirst,
    mfLast, Bool.false_eq_true]
  by_cases hnil : btCursorIsNil c
  all_goals by_cases hloc : db.activeTxn
  all_goals simp only [hnil, hloc, if_true, if_false, Bool.not_true, Bool.not_false,
    Bool.false_eq_true, Bool.true_eq_false, if_true, if_false]
  all_goals {
    first
    | (refine ⟨?_, ?_, ?_, ?_⟩ <;>
        first
        | (obtain ⟨hA, hB⟩ := my_move_first_empty db c f hvalid hempty
           simp [moveReadFinish, hA, hB]
           done)
        | (obtain ⟨hA, hB⟩ := my_move_last_empty db c f hvalid hempty
           simp [moveReadFinish, hA, hB]
           done)
        | (obtain ⟨hA, hB⟩ := my_move_first_empty (txnBegin db) c f hvalid
             (hemptyT (txnBegin db) hb hb2)
           simp [moveReadFinish, hA, hB]
           done)
        | (obtain ⟨hA, hB⟩ := my_move_last_empty (txnBegin db) c f hvalid
             (hemptyT (txnBegin db) hb hb2)
           simp [moveReadFinish, hA, hB]
           done))
  }

/-- C6: on a NIL cursor a NEXT move is rewritten to FIRST and a PREVIOUS move
to LAST — the whole call result is identical — and a move with no direction
on a NIL cursor returns `CURSOR_IS_NIL` exactly when a key or a record
buffer was supplied, OK otherwise. -/
theorem move_nil_preprocessing :
    (∀ (db : DB) (c : BtCursor) (wantKey wantRec : Bool) (fuel : Nat),
      btCursorIsNil c = true →
      bt_cursor_move db c wantKey wantRec mfNext fuel =
        bt_cursor_move db c wantKey wantRec mfFirst fuel ∧
      bt_cursor_move db c wantKey wantRec mfPrev fuel =
        bt_cursor_move db c wantKey wantRec mfLast fuel) ∧
    (∀ (db : DB) (c : BtCursor) (wantKey wantRec : Bool) (fuel : Nat),
      btCursorIsNil c = true → db.hasBackend = true →
      (bt_cursor_move db c wantKey wantRec mfNone fuel).st =
        (if wantKey || wantRec then Status.cursorIsNil else Status.ok)) := by
  constructor
  · intro db c wantKey wantRec fuel hnil
    constructor
    · simp [bt_cursor_move, hnil, mfNext, mfFirst]
    · simp [bt_cursor_move, hnil, mfPrev, mfLast]
  · intro db c wantKey wantRec fuel hnil hbe
    simp only [bt_cursor_move, hbe, Bool.not_true, Bool.false_eq_true, if_false]
    simp only [hnil, mfNone, if_true]
    cases wantKey <;> cases wantRec <;> by_cases hloc : db.activeTxn <;> simp [hloc]

def c10Root : Page := ⟨PageType.root, ⟨true, 0, 0, 0, 0, []⟩, false, []⟩

def c10Db : DB := ⟨[(1, c10Root)], 2, 1, 4, false, 100, true, false, 0, []⟩

def c10Cur : BtCursor := ⟨7, false, false, 0, 0, none, 0, 0, 0⟩

/-- Witness for C10 at a database whose root node holds zero entries. -/
theorem move_first_last_empty_tree_witness :
    (bt_cursor_move c10Db c10Cur true false mfFirst 1).st = Status.keyNotFound :=
  (move_first_last_empty_tree c10Db c10Cur true false 1 rfl (by decide) (by decide)
    (Or.inr ⟨c10Root, rfl, rfl⟩)).1

def c6Db : DB := ⟨[], 1, 0, 4, false, 0, true, false, 0, []⟩

def c6Cur : BtCursor := ⟨3, false, false, 0, 0, none, 0, 0, 0⟩

/-- Witness for C6 on a NIL cursor: NEXT coincides with FIRST, and a
directionless move with a key buffer supplied reports `CURSOR_IS_NIL`. -/
theorem move_nil_preprocessing_witness :
    (bt_cursor_move c6Db c6Cur true false mfNext 1 =
       bt_cursor_move c6Db c6Cur true false mfFirst 1) ∧
    (bt_cursor_move c6Db c6Cur true false mfNone 1).st =
      (if (true || false : Bool) then Status.cursorIsNil else Status.ok) :=
  ⟨(move_nil_preprocessing.1 c6Db c6Cur true false 1 (by decide)).1,
   move_nil_preprocessing.2 c6Db c6Cur true false 1 (by decide) rfl⟩

def c7Db : DB := ⟨[], 1, 0, 4, false, 0, true, false, 0, []⟩

def c7Cur : BtCursor := ⟨5, false, false, 0, 0, none, 0, 0, 0⟩

/-- C7 (code bug): `bt_cursor_erase` on a NIL cursor with no active outer
transaction begins a private transaction (the trace holds exactly the begin
call) and then returns `CURSOR_IS_NIL` without committing or aborting it —
the database is left with the private transaction still active, violating
the claim that no return path leaves it unresolved. -/
theorem cursor_erase_leaks_private_txn :
    (bt_cursor_erase c7Db c7Cur 3).st = Status.cursorIsNil ∧
    (bt_cursor_erase c7Db c7Cur 3).tr = [TxnEvent.tbegin] ∧
    (bt_cursor_erase c7Db c7Cur 3).db.activeTxn = true := by
  decide

def c8CurTail : BtCursor := ⟨1, false, false, 0, 0, none, 0, 0, 2⟩

def c8CurHead : BtCursor := ⟨2, false, false, 0, 0, none, 0, 1, 0⟩

def c8Db : DB := ⟨[], 1, 0, 4, false, 0, true, false, 2, [(2, c8CurHead), (1, c8CurTail)]⟩

/-- C8 (code bug): with two cursors in the database list (head 2 → 1),
closing cursor 1 — the tail — takes the `n == 0` branch of
`bt_cursor_close`, which sets the database cursor-list head to null; cursor
2 still exists in the store but is no longer reachable from the head,
contradicting the claim that every other cursor stays reachable. -/
theorem cursor_close_loses_list :
    cursorChain c8Db 4 c8Db.cursorsHead = [2, 1] ∧
    (bt_cursor_close c8Db 1).2.cursorsHead = 0 ∧
    cursorChain (bt_cursor_close c8Db 1).2 4 ((bt_cursor_close c8Db 1).2.cursorsHead) = [] ∧
    ((bt_cursor_close c8Db 1).2.findCursor 2).isSome = true := by
  decide
